import Mathlib

/-!
# gorm-queryfunc: query composition and pagination

A shallow embedding of `query.go` and `queryfunc.go`.

* Go's `int` is the 64-bit two's-complement integer; values are carried as `Int` and every
  arithmetic result is reduced by `wrapInt`.
* A finite `float64` is carried as the rational number it denotes.  `roundF64` is IEEE-754
  round-to-nearest, ties-to-even, with a 53-bit significand.  The exponent range of binary64 is
  never reached by the program: every operand is an `int` (magnitude at most `2 ^ 63`) and the
  only quotient has a divisor of magnitude at least `1`.
* A panic is an `Except.error`; a returned Go `error` is an `Option GoError`.
-/

namespace Queryfunc

/-! ## Machine arithmetic -/

/-- Two's-complement reduction of a mathematical integer into Go's 64-bit `int`. -/
def wrapInt (x : Int) : Int := (x + 2 ^ 63) % 2 ^ 64 - 2 ^ 63

/-- Rounding of a rational to the nearest integer, ties to the even one. -/
def roundHalfEven (z : ℚ) : Int :=
  let f := ⌊z⌋
  if z - f < 1 / 2 then f
  else if 1 / 2 < z - f then f + 1
  else if f % 2 = 0 then f else f + 1

/-- Rounding of a rational to binary64: with `2 ^ e ≤ |q| < 2 ^ (e + 1)` the spacing of the
representable numbers around `q` is `2 ^ (e - 52)`. -/
def roundF64 (q : ℚ) : ℚ :=
  if q = 0 then 0
  else
    let u : ℚ := (2 : ℚ) ^ (Int.log 2 |q| - 52)
    (roundHalfEven (q / u) : ℚ) * u

/-- The conversion `float64(n)` of an `int`. -/
def float64 (n : Int) : ℚ := roundF64 (n : ℚ)

/-- The binary64 quotient `a / b`, for a divisor that is not zero. -/
def f64div (a b : ℚ) : ℚ := roundF64 (a / b)

/-- The function `math.Ceil`: the result is an integer and is representable whenever its
argument is. -/
def mathCeil (x : ℚ) : ℚ := ((⌈x⌉ : Int) : ℚ)

/-- The conversion `int(x)` of a `float64`: truncation toward zero; a value outside the range of
`int` gives the implementation-dependent result of the amd64 instruction, the least `int`. -/
def intOfF64 (x : ℚ) : Int :=
  let t : Int := if 0 ≤ x then ⌊x⌋ else ⌈x⌉
  if -(2 ^ 63) ≤ t ∧ t < 2 ^ 63 then t else -(2 ^ 63)

/-! ## Values behind `interface{}` and their reflection -/

/-- Go types, as far as `reflect` tells them apart here. -/
inductive GoType where
  | basic (name : String)
  | struct (name : String)
  | ptr (elem : GoType)
  | slice (elem : GoType)
  | array (len : Nat) (elem : GoType)
  | map (key : GoType) (elem : GoType)
  | iface
  deriving DecidableEq, Repr

/-- Dynamic Go values.  A pointer is its pointee (or `none` when nil); `nil` is the nil
interface value. -/
inductive GoValue where
  | nil
  | str (s : String)
  | int (i : Int)
  | bool (b : Bool)
  | struct (name : String) (fields : List GoValue)
  | ptr (elem : GoType) (target : Option GoValue)
  | slice (elem : GoType) (items : List GoValue)
  | array (elem : GoType) (items : List GoValue)
  | mapIface (entries : List (String × GoValue))
  | mapStr (entries : List (String × String))
  | namedArg (name : String) (value : GoValue)
  deriving Repr

/-- The type `map[string]interface{}`. -/
def mapIfaceType : GoType := .map (.basic "string") .iface

/-- The type `map[string]string`. -/
def mapStrType : GoType := .map (.basic "string") (.basic "string")

/-- The type `sql.NamedArg`. -/
def namedArgType : GoType := .struct "sql.NamedArg"

/-- The dynamic type of a value; the nil interface has none. -/
def GoValue.typeOf : GoValue → Option GoType
  | .nil => none
  | .str _ => some (.basic "string")
  | .int _ => some (.basic "int")
  | .bool _ => some (.basic "bool")
  | .struct n _ => some (.struct n)
  | .ptr t _ => some (.ptr t)
  | .slice t _ => some (.slice t)
  | .array t xs => some (.array xs.length t)
  | .mapIface _ => some mapIfaceType
  | .mapStr _ => some mapStrType
  | .namedArg _ _ => some namedArgType

/-- The kinds of `reflect.Kind` that the package tells apart; `Other` stands for every remaining
kind. -/
inductive Kind where
  | Invalid
  | Ptr
  | Slice
  | Array
  | Interface
  | Struct
  | Map
  | Other
  deriving DecidableEq, Repr

/-- The method `Type.Kind`. -/
def GoType.kind : GoType → Kind
  | .basic _ => .Other
  | .struct _ => .Struct
  | .ptr _ => .Ptr
  | .slice _ => .Slice
  | .array _ _ => .Array
  | .map _ _ => .Map
  | .iface => .Interface

/-- The method `Type.String`, which the verbs `%v` and `%T` print for a type. -/
def GoType.String : GoType → String
  | .basic n => n
  | .struct n => n
  | .ptr t => "*" ++ t.String
  | .slice t => "[]" ++ t.String
  | .array n t => "[" ++ toString n ++ "]" ++ t.String
  | .map k t => "map[" ++ k.String ++ "]" ++ t.String
  | .iface => "interface {}"

/-- Errors returned by the package and by execution handlers. -/
inductive GoError where
  | ErrNoRows
  | errorf (msg : String)
  | other (tag : Nat)
  deriving DecidableEq, Repr

/-- Panics raised by the package and by the runtime underneath it. -/
inductive GoPanic where
  | fnNotImplement
  | nilDereference
  | reflectPanic (what : String)
  deriving DecidableEq, Repr

/-- A `reflect.Value`: the zero Value, or a value together with its static type.  Under the
static type `interface{}` the value is the dynamic content of the interface. -/
inductive RValue where
  | invalid
  | val (typ : GoType) (v : GoValue)
  deriving Repr

/-- The function `reflect.ValueOf`. -/
def reflectValueOf (x : GoValue) : RValue :=
  match x.typeOf with
  | none => .invalid
  | some t => .val t x

/-- The method `Value.Kind`. -/
def RValue.Kind : RValue → Kind
  | .invalid => .Invalid
  | .val t _ => t.kind

/-- The method `Value.Type`, which panics on the zero Value. -/
def RValue.Type : RValue → Except GoPanic GoType
  | .invalid => .error (.reflectPanic "call of reflect.Value.Type on zero Value")
  | .val t _ => .ok t

/-- The method `Value.Elem`: the pointee of a pointer (the zero Value for a nil pointer), the
content of an interface, and a panic for every other kind. -/
def RValue.Elem : RValue → Except GoPanic RValue
  | .val (.ptr t) (.ptr _ (some v)) => .ok (.val t v)
  | .val (.ptr _) (.ptr _ none) => .ok .invalid
  | .val .iface v => .ok (reflectValueOf v)
  | _ => .error (.reflectPanic "call of reflect.Value.Elem on a Value that is no pointer")

/-- The method `Value.Len` on the kinds that have a length. -/
def RValue.Len : RValue → Except GoPanic Nat
  | .val (.slice _) (.slice _ xs) => .ok xs.length
  | .val (.array _ _) (.array _ xs) => .ok xs.length
  | .val (.map _ _) (.mapIface xs) => .ok xs.length
  | .val (.map _ _) (.mapStr xs) => .ok xs.length
  | .val (.basic _) (.str s) => .ok s.utf8ByteSize
  | _ => .error (.reflectPanic "call of reflect.Value.Len on a Value without length")

/-- The method `Value.Index` on slices and arrays: the element, under the element type. -/
def RValue.Index (r : RValue) (i : Nat) : Except GoPanic RValue :=
  match r with
  | .val (.slice t) (.slice _ xs) =>
    match xs.get? i with
    | some x => .ok (.val t x)
    | none => .error (.reflectPanic "reflect: slice index out of range")
  | .val (.array _ t) (.array _ xs) =>
    match xs.get? i with
    | some x => .ok (.val t x)
    | none => .error (.reflectPanic "reflect: array index out of range")
  | _ => .error (.reflectPanic "call of reflect.Value.Index on a Value without elements")

/-- Assignability of a value of type `src` to a variable of type `dst`: the types are identical,
or the variable is an `interface{}`. -/
def assignable (src dst : GoType) : Bool := decide (src = dst) || decide (dst = GoType.iface)

/-- The statement `rOut.Elem().Set(x)`: the pointer `rOut` after the store.  It panics when
`rOut` is not a pointer or is nil, when `x` is the zero Value, and when the type of `x` is not
assignable to the pointee type. -/
def setElem (rOut : RValue) (x : RValue) : Except GoPanic RValue :=
  match rOut with
  | .val (.ptr td) (.ptr te (some _)) =>
    match x with
    | .invalid => .error (.reflectPanic "call of reflect.Value.Set on zero Value")
    | .val tx v =>
      if assignable tx td then .ok (.val (.ptr td) (.ptr te (some v)))
      else .error (.reflectPanic "value is not assignable to the destination type")
  | .val (.ptr _) (.ptr _ none) =>
    .error (.reflectPanic "call of reflect.Value.Set on zero Value")
  | _ => .error (.reflectPanic "call of reflect.Value.Elem on a Value that is no pointer")

/-! ## `queryfunc.go`: the query spec -/

/-- A statement handed to the backend: `db.Raw(sql, values...)`. -/
structure RawQuery where
  sql : String
  vars : List GoValue

/-- What the package reads of the `*gorm.DB` that `Scan(dest)` and `Find(dest)` return, and the
destination after the call. -/
structure GormResult where
  Error : Option GoError
  RowsAffected : Int
  dest : GoValue

/-- The backend behind the `DB` interface, as far as the package uses it directly.
`scanCount` is `Row().Scan(&count)` of the count statement: it stores an integer, or fails and
stores nothing.  `scan` and `find` are `Scan(dest)` and `Find(dest)` of a statement, `rowScan`
is `Row().Scan(dest)` with its error and the destination after the call, and `explain` is the
text that a dry run of the statement explains. -/
structure DB where
  scanCount : RawQuery → Option Int
  scan : RawQuery → GoValue → GormResult :=
    fun _ dest => { Error := none, RowsAffected := 0, dest := dest }
  find : RawQuery → GoValue → GormResult :=
    fun _ dest => { Error := none, RowsAffected := 0, dest := dest }
  rowScan : RawQuery → GoValue → Option GoError × GoValue := fun _ dest => (none, dest)
  explain : RawQuery → String := fun q => q.sql

/-- The type `Handler`: `func(db DB, rawSQL *gorm.DB) (interface{}, error)`. -/
abbrev Handler := DB → RawQuery → GoValue × Option GoError

/-- The struct `Builder`; a nil `paginationFn` is `none`. -/
structure Builder where
  rawSQL : String
  countRawSQL : String
  orderBy : String
  groupBy : String
  having : String
  isWrapJSON : Bool
  paginationFn : Option Handler

def NewBuilder (rawSQL : String) (countRawSQL : List String) : Builder :=
  { rawSQL := rawSQL
    countRawSQL := match countRawSQL with
      | [] => ""
      | s :: _ => s
    orderBy := ""
    groupBy := ""
    having := ""
    isWrapJSON := false
    paginationFn := none }

def Builder.WithPaginationFunc (b : Builder) (fn : Option Handler) : Builder :=
  { b with paginationFn := fn }

def Builder.WithRawSQL (b : Builder) (sql : String) : Builder := { b with rawSQL := sql }

def Builder.WithWrapJSON (b : Builder) (wrap : Bool) : Builder := { b with isWrapJSON := wrap }

def Builder.WithCountRawSQL (b : Builder) (sql : String) : Builder :=
  { b with countRawSQL := sql }

def Builder.WithOrderBy (b : Builder) (sql : String) : Builder := { b with orderBy := sql }

def Builder.WithGroupBy (b : Builder) (sql : String) : Builder := { b with groupBy := sql }

def Builder.WithHaving (b : Builder) (sql : String) : Builder := { b with having := sql }

def Builder.GetRawSQL (b : Builder) : String := b.rawSQL

def Builder.GetCountRawSQL (b : Builder) : String := b.countRawSQL

def Builder.GetGroupByRawSQL (b : Builder) : String := b.groupBy

def Builder.GetOrderByRawSQL (b : Builder) : String := b.orderBy

def Builder.GetHavingRawSQL (b : Builder) : String := b.having

def Builder.IsWrapJSON (b : Builder) : Bool := b.isWrapJSON

def Builder.GetPaginationFunc (b : Builder) : Option Handler := b.paginationFn

/-! ## `query.go`: the builder state -/

/-- The struct `Pagination`. -/
structure Pagination where
  HasNext : Bool
  HasPrev : Bool
  PerPage : Int
  NextPage : Int
  Page : Int
  PrevPage : Int
  Offset : Int
  Records : GoValue
  TotalRecord : Int
  TotalPage : Int
  Metadata : GoValue

/-- The zero value `var pagination Pagination`. -/
def Pagination.zero : Pagination :=
  { HasNext := false, HasPrev := false, PerPage := 0, NextPage := 0, Page := 0, PrevPage := 0,
    Offset := 0, Records := .nil, TotalRecord := 0, TotalPage := 0, Metadata := .nil }

/-- The struct `config`.  The field `qf` holds an interface and is `none` when that is nil; the
map `namedWhereValues` is an association list with one entry per key. -/
structure config where
  db : DB
  RawSQLString : String
  countRawSQL : String
  limit : Int
  page : Int
  hasWhere : Bool
  whereValues : List GoValue
  namedWhereValues : List (String × GoValue)
  orderBy : String
  groupBy : String
  having : String
  wrapJSON : Bool
  qf : Option Builder

/-- The constructor `New`.  Calling a method on a nil `qf` is a nil dereference. -/
def New (db : DB) (qf : Option Builder) : Except GoPanic config :=
  match qf with
  | none => .error .nilDereference
  | some b =>
    .ok { db := db
          RawSQLString := b.GetRawSQL
          whereValues := []
          namedWhereValues := []
          hasWhere := false
          orderBy := b.GetOrderByRawSQL
          groupBy := b.GetGroupByRawSQL
          wrapJSON := b.IsWrapJSON
          countRawSQL := b.GetCountRawSQL
          having := b.GetHavingRawSQL
          qf := some b
          limit := 0
          page := 0 }

def config.WithWrapJSON (c : config) (isWrapJSON : Bool) : config :=
  { c with wrapJSON := isWrapJSON }

/-- The assignment `m[key] = v` on a map. -/
def mapAssign {α : Type} (m : List (String × α)) (key : String) (v : α) : List (String × α) :=
  match m with
  | [] => [(key, v)]
  | (k, w) :: rest => if k = key then (k, v) :: rest else (k, w) :: mapAssign rest key v

/-- The verb `%v` of `fmt.Sprintf`: a string is written as it is; the rendering of every other
operand is the parameter `render`. -/
def sprintV (render : GoValue → String) : GoValue → String
  | .str s => s
  | v => render v

/-- The method `Where`. -/
def config.Where (render : GoValue → String) (c : config) (query : GoValue)
    (args : List GoValue) : config :=
  match query with
  | .mapIface value =>
    { c with namedWhereValues :=
        value.foldl (fun m kv => mapAssign m kv.1 kv.2) c.namedWhereValues }
  | .mapStr value =>
    { c with namedWhereValues :=
        value.foldl (fun m kv => mapAssign m kv.1 (GoValue.str kv.2)) c.namedWhereValues }
  | .namedArg name value =>
    { c with namedWhereValues := mapAssign c.namedWhereValues name value }
  | query =>
    let c1 : config :=
      if args.length > 0 then { c with whereValues := c.whereValues ++ args } else c
    if c1.hasWhere then
      let c2 : config :=
        { c1 with RawSQLString := c1.RawSQLString ++ " AND " ++ sprintV render query }
      if c2.countRawSQL ≠ "" then
        { c2 with countRawSQL := c2.countRawSQL ++ " AND " ++ sprintV render query }
      else c2
    else
      let c2 : config :=
        { c1 with RawSQLString := c1.RawSQLString ++ " WHERE " ++ sprintV render query }
      let c3 : config :=
        if c2.countRawSQL ≠ "" then
          { c2 with countRawSQL := c2.countRawSQL ++ " WHERE " ++ sprintV render query }
        else c2
      { c3 with hasWhere := true }

/-- The method `OrderBy`; `strings.Join(orderBy, ",")`. -/
def config.OrderBy (c : config) (orderBy : List String) : config :=
  if orderBy.length > 0 then { c with orderBy := ",".intercalate orderBy } else c

def config.GroupBy (c : config) (groupBy : String) : config := { c with groupBy := groupBy }

def config.WhereFunc (c : config) (f : config → config) : config := f c

def config.Limit (c : config) (limit : Int) : config := { c with limit := limit }

def config.Page (c : config) (page : Int) : config := { c with page := page }

/-- The JSON wrapper of `build`. -/
def wrapJSONText (queryString : String) : String :=
  "\nWITH alias AS (\n" ++ queryString ++
    "\n)\nSELECT to_jsonb(row_to_json(alias)) AS alias\nFROM alias\n\t\t"

/-- The method `build`: the data SQL and the count SQL. -/
def config.build (c : config) : String × String :=
  let rawSQLString := c.RawSQLString
  let queryString := rawSQLString
  let countQuery := c.countRawSQL
  let countQuery := if countQuery = "" then rawSQLString else countQuery
  let queryString :=
    if c.groupBy ≠ "" then queryString ++ " GROUP BY " ++ c.groupBy else queryString
  let countQuery :=
    if c.groupBy ≠ "" then countQuery ++ " GROUP BY " ++ c.groupBy else countQuery
  let queryString :=
    if c.having ≠ "" then queryString ++ " HAVING " ++ c.having else queryString
  let countQuery :=
    if c.having ≠ "" then countQuery ++ " HAVING " ++ c.having else countQuery
  let queryString :=
    if c.orderBy ≠ "" then queryString ++ " ORDER BY " ++ c.orderBy else queryString
  let queryString :=
    if c.limit > 0 then queryString ++ " LIMIT " ++ toString c.limit else queryString
  let queryString :=
    if c.page > 0 then
      let offset : Int := if c.page > 1 then wrapInt (wrapInt (c.page - 1) * c.limit) else 0
      queryString ++ " OFFSET " ++ toString offset
    else queryString
  let queryString := if c.wrapJSON then wrapJSONText queryString else queryString
  (queryString, countQuery)

/-- The method `GetPagingFunc`. -/
def config.GetPagingFunc (c : config) (f : List Handler) : Option Handler :=
  match c.qf with
  | some qf => qf.GetPaginationFunc
  | none =>
    match f with
    | fn :: _ => some fn
    | [] => none

/-- The method `mergeValues`. -/
def config.mergeValues (c : config) : List GoValue :=
  let values : List GoValue := []
  let values := values ++ c.whereValues
  if c.namedWhereValues.length > 0 then values ++ [GoValue.mapIface c.namedWhereValues]
  else values

/-- The template of the count statement in `PagingFunc`. -/
def countWrapText (countSQLString : String) : String :=
  "\nSELECT COUNT(1) \nFROM (\n" ++ countSQLString ++ "\n) t\n\t"

/-- The method `count`: the scanned value, or the untouched `0` when the scan fails. -/
def config.count (c : config) (countSQL : RawQuery) : Int :=
  match c.db.scanCount countSQL with
  | some n => n
  | none => 0

/-- What a call of `PagingFunc` leaves behind: the returned `Pagination`, the builder (whose
page has been normalised) and the two statements that were issued. -/
structure PagingResult where
  pagination : Pagination
  cfg : config
  dataQuery : RawQuery
  countQuery : RawQuery

/-- The body of `PagingFunc` once the handler `fn` is resolved, on the builder whose page has
been normalised.  The count task and the handler do not share state, so the interleaving of the
two does not show in the result. -/
def config.pagingBody (c : config) (fn : Handler) : PagingResult :=
  let offset : Int := wrapInt (wrapInt (c.page - 1) * c.limit)
  let built := c.build
  let sqlString := built.1
  let countSQLString := built.2
  let values := c.mergeValues
  let countSQLString := countWrapText countSQLString
  let countSQL : RawQuery := { sql := countSQLString, vars := values }
  let count : Int := c.count countSQL
  let dataSQL : RawQuery := { sql := sqlString, vars := values }
  let result := (fn c.db dataSQL).1
  let p : Pagination := Pagination.zero
  let p := { p with TotalRecord := count, Records := result, Page := c.page, Offset := offset }
  let p :=
    if c.limit > 0 then
      { p with
        PerPage := c.limit
        TotalPage := intOfF64 (mathCeil (f64div (float64 count) (float64 c.limit))) }
    else { p with TotalPage := 1, PerPage := count }
  let p :=
    if c.page > 1 then { p with PrevPage := wrapInt (c.page - 1) }
    else { p with PrevPage := c.page }
  let p :=
    if c.page = p.TotalPage then { p with NextPage := c.page }
    else { p with NextPage := wrapInt (c.page + 1) }
  let p := { p with HasNext := decide (p.TotalPage > p.Page) }
  let p := { p with HasPrev := decide (p.Page > 1) }
  let p := if !p.HasNext then { p with NextPage := p.Page } else p
  { pagination := p, cfg := c, dataQuery := dataSQL, countQuery := countSQL }

/-- The method `PagingFunc`. -/
def config.PagingFunc (c : config) (f : List Handler) : Except GoPanic PagingResult :=
  let c : config := if c.page < 1 then { c with page := 1 } else c
  match c.GetPagingFunc f with
  | none => .error .fnNotImplement
  | some fn => .ok (c.pagingBody fn)

/-- The method `copyResult`: the returned error and the destination pointer after the call. -/
def config.copyResult (_c : config) (rOut : RValue) (result : GoValue) :
    Except GoPanic (Option GoError × RValue) := do
  let rResult := reflectValueOf result
  let rResult ←
    if rResult.Kind ≠ Kind.Ptr then
      -- toPtr
      let t ← rResult.Type
      pure (RValue.val (.ptr t) (.ptr t (some result)))
    else pure rResult
  let tResult ← rResult.Type
  let tOut ← rOut.Type
  if tResult ≠ tOut then
    if rResult.Kind = Kind.Array ∨ rResult.Kind = Kind.Slice then
      let n ← rResult.Len
      if n > 0 then
        let elem ← (← rResult.Index 0).Elem
        let rOut ← setElem rOut elem
        return (none, rOut)
      else
        return (some GoError.ErrNoRows, rOut)
    else if rResult.Kind = Kind.Ptr then
      let inner ← rResult.Elem
      if inner.Kind = Kind.Array ∨ inner.Kind = Kind.Slice then
        let n ← inner.Len
        if n > 0 then
          let elem ← (← inner.Index 0).Elem
          let rOut ← setElem rOut elem
          return (none, rOut)
        else
          return (some GoError.ErrNoRows, rOut)
      else
        return (some (GoError.errorf (tResult.String ++ " is not " ++ tOut.String)), rOut)
    else
      return (some (GoError.errorf (tResult.String ++ " is not " ++ tOut.String)), rOut)
  else
    let x ← rResult.Elem
    let rOut ← setElem rOut x
    return (none, rOut)

/-- The verb `%T` of `fmt`: the dynamic type of the operand, `<nil>` for the nil interface. -/
def sprintT (x : GoValue) : String :=
  match x.typeOf with
  | none => "<nil>"
  | some t => t.String

/-- What a call of `FindFunc` or `FirstFunc` leaves behind: the returned error, the destination
after the call, the builder, and the statement handed to the handler when it was invoked. -/
structure FetchResult where
  err : Option GoError
  dest : RValue
  cfg : config
  issued : Option RawQuery

/-- The common tail of `FindFunc` and `FirstFunc`, from `c.build()` on. -/
def config.fetch (c : config) (dest : GoValue) (f : List Handler) :
    Except GoPanic FetchResult :=
  let sqlString := c.build.1
  let rOut := reflectValueOf dest
  if rOut.Kind ≠ Kind.Ptr then
    .ok { err := some (GoError.errorf ("must be a pointer of " ++ sprintT dest))
          dest := rOut, cfg := c, issued := none }
  else
    match c.GetPagingFunc f with
    | none => .error .fnNotImplement
    | some fn =>
      let values := c.mergeValues
      let q : RawQuery := { sql := sqlString, vars := values }
      match fn c.db q with
      | (_, some err) => .ok { err := some err, dest := rOut, cfg := c, issued := some q }
      | (result, none) =>
        match c.copyResult rOut result with
        | .error e => .error e
        | .ok (err, rOut) => .ok { err := err, dest := rOut, cfg := c, issued := some q }

/-- The method `FindFunc`. -/
def config.FindFunc (c : config) (dest : GoValue) (f : List Handler) :
    Except GoPanic FetchResult :=
  c.fetch dest f

/-- The method `FirstFunc`. -/
def config.FirstFunc (c : config) (dest : GoValue) (f : List Handler) :
    Except GoPanic FetchResult :=
  let c : config := { c with limit := 1 }
  c.fetch dest f

/-- What a call of `Scan`, `Find` or `ScanRow` leaves behind: the returned error, the
destination after the call and the statement that was issued. -/
structure ExecResult where
  err : Option GoError
  dest : GoValue
  issued : RawQuery

/-- The method `Scan`. -/
def config.Scan (c : config) (dest : GoValue) : ExecResult :=
  let sqlString := c.build.1
  let values := c.mergeValues
  let q : RawQuery := { sql := sqlString, vars := values }
  let result := c.db.scan q dest
  if result.Error ≠ none then
    if result.RowsAffected = 0 then
      { err := some GoError.ErrNoRows, dest := result.dest, issued := q }
    else { err := result.Error, dest := result.dest, issued := q }
  else { err := result.Error, dest := result.dest, issued := q }

/-- The method `Find`. -/
def config.Find (c : config) (dest : GoValue) : ExecResult :=
  let sqlString := c.build.1
  let values := c.mergeValues
  let q : RawQuery := { sql := sqlString, vars := values }
  let result := c.db.find q dest
  if result.Error ≠ none then
    if result.RowsAffected = 0 then
      { err := some GoError.ErrNoRows, dest := result.dest, issued := q }
    else { err := result.Error, dest := result.dest, issued := q }
  else { err := result.Error, dest := result.dest, issued := q }

/-- The method `ExplainSQL`: the explained text, and the statement of the dry run. -/
def config.ExplainSQL (c : config) : String × RawQuery :=
  let sqlString := c.build.1
  let values := c.mergeValues
  let q : RawQuery := { sql := sqlString, vars := values }
  (c.db.explain q, q)

/-- The method `ScanRow`.  The call is `Raw(sqlString, values)`, without the spread: the
statement has one bound value, the `[]interface{}` itself. -/
def config.ScanRow (c : config) (dest : GoValue) : ExecResult :=
  let sqlString := c.build.1
  let values := c.mergeValues
  let q : RawQuery := { sql := sqlString, vars := [GoValue.slice GoType.iface values] }
  let r := c.db.rowScan q dest
  match r.1 with
  | some err => { err := some err, dest := r.2, issued := q }
  | none => { err := none, dest := r.2, issued := q }

/-! ## Notions used in the statements -/

/-- The first statement of `PagingFunc`: a page below one becomes one. -/
def config.normPage (c : config) : config := if c.page < 1 then { c with page := 1 } else c

/-- The queries that the type switch of `Where` takes as named parameters: a
`map[string]interface{}`, a `map[string]string` or a `sql.NamedArg`. -/
def isNamedQuery : GoValue → Bool
  | .mapIface _ => true
  | .mapStr _ => true
  | .namedArg _ _ => true
  | _ => false

/-- A chain of `Where` calls, each with its query and its arguments. -/
def config.Wheres (render : GoValue → String) (c : config)
    (calls : List (GoValue × List GoValue)) : config :=
  calls.foldl (fun c call => c.Where render call.1 call.2) c

/-- The arguments of the calls that are not named-parameter calls, in the order of the calls. -/
def positionalArgs : List (GoValue × List GoValue) → List GoValue
  | [] => []
  | call :: rest => (if isNamedQuery call.1 then [] else call.2) ++ positionalArgs rest

/-- The data SQL after the clauses `GROUP BY`, `HAVING`, `ORDER BY`, `LIMIT` and `OFFSET`, in
this order, each under its condition, before the JSON wrapper; `k` is the number in the
`OFFSET` clause. -/
def clauseText (c : config) (k : Int) : String :=
  c.RawSQLString
    ++ (if c.groupBy ≠ "" then " GROUP BY " ++ c.groupBy else "")
    ++ (if c.having ≠ "" then " HAVING " ++ c.having else "")
    ++ (if c.orderBy ≠ "" then " ORDER BY " ++ c.orderBy else "")
    ++ (if c.limit > 0 then " LIMIT " ++ toString c.limit else "")
    ++ (if c.page > 0 then " OFFSET " ++ toString k else "")

/-- The text that the count SQL starts from: the explicit count SQL, or the data SQL text when
there is none. -/
def countBase (c : config) : String :=
  if c.countRawSQL = "" then c.RawSQLString else c.countRawSQL

/-- The text that a chain of `Where` calls appends to a SQL text: nothing for a
named-parameter call, `" WHERE <query>"` for the first other call and `" AND <query>"` for
every later one; `started` tells whether a clause is already there. -/
def whereSuffix (render : GoValue → String) :
    Bool → List (GoValue × List GoValue) → String
  | _, [] => ""
  | started, call :: rest =>
    if isNamedQuery call.1 then whereSuffix render started rest
    else
      (if started then " AND " else " WHERE ") ++ sprintV render call.1
        ++ whereSuffix render true rest

/-- The data SQL after the clauses `GROUP BY`, `HAVING`, `ORDER BY` and `LIMIT`, before the
`OFFSET` clause. -/
def clausesBeforeOffset (c : config) : String :=
  c.RawSQLString
    ++ (if c.groupBy ≠ "" then " GROUP BY " ++ c.groupBy else "")
    ++ (if c.having ≠ "" then " HAVING " ++ c.having else "")
    ++ (if c.orderBy ≠ "" then " ORDER BY " ++ c.orderBy else "")
    ++ (if c.limit > 0 then " LIMIT " ++ toString c.limit else "")

/-- The type that `copyResult` compares with the type of the destination: the type of the
result, behind a reference when the result is not a pointer itself. -/
def boxedType (result : GoValue) : Option GoType :=
  match result.typeOf with
  | none => none
  | some (.ptr t) => some (.ptr t)
  | some t => some (.ptr t)

/-! ## Well-formed inputs and sample objects -/

/-- The values of Go's 64-bit `int`. -/
def IsInt64 (x : Int) : Prop := -(2 ^ 63) ≤ x ∧ x < 2 ^ 63

instance (x : Int) : Decidable (IsInt64 x) := by unfold IsInt64; infer_instance

/-- A backend whose count statement scans the value `n`. -/
def countingDB (n : Int) : DB := { scanCount := fun _ => some n }

/-- The type `[]*User` of the records in the tests. -/
def userListType : GoType := .slice (.ptr (.struct "User"))

/-- A handler that succeeds with a reference to an empty `[]*User`. -/
def emptyUsersHandler : Handler :=
  fun _ _ => (GoValue.ptr userListType (some (GoValue.slice (.ptr (.struct "User")) [])), none)

/-- A query spec with a handler and no count SQL. -/
def usersBuilder : Builder :=
  (NewBuilder "SELECT u.* FROM users u" []).WithPaginationFunc (some emptyUsersHandler)

/-- A query spec on which no handler was registered. -/
def bareBuilder : Builder := NewBuilder "SELECT u.* FROM users u" []

/-- The builder that `New` makes from `bareBuilder`. -/
def bareState : config := (New (countingDB 12) (some bareBuilder)).toOption.get rfl

/-- A destination of type `*User`, pointing at a zero `User`. -/
def userDest : GoValue := GoValue.ptr (.struct "User") (some (GoValue.struct "User" []))

/-- A record of type `User`. -/
def sampleUser : GoValue := GoValue.struct "User" [GoValue.str "User 1"]

/-- A reference `*User` to `sampleUser`. -/
def sampleUserPtr : GoValue := GoValue.ptr (.struct "User") (some sampleUser)

/-- A handler that succeeds with a `[]User` of one record: a sequence of values, not of
references. -/
def valueUsersHandler : Handler :=
  fun _ _ => (GoValue.slice (.struct "User") [sampleUser], none)

/-- The builder that `New` makes from a query spec with `valueUsersHandler`. -/
def valueUsersState : config :=
  (New (countingDB 12)
    (some ((NewBuilder "SELECT u.* FROM users u" []).WithPaginationFunc
      (some valueUsersHandler)))).toOption.get rfl

/-- A handler that succeeds with a reference to a `[]*User` of one record, as in the tests. -/
def oneUserHandler : Handler :=
  fun _ _ => (GoValue.ptr userListType (some (GoValue.slice (.ptr (.struct "User"))
    [sampleUserPtr])), none)

/-- The builder that `New` makes from a query spec with `oneUserHandler`. -/
def oneUserState : config :=
  (New (countingDB 12)
    (some ((NewBuilder "SELECT u.* FROM users u" []).WithPaginationFunc
      (some oneUserHandler)))).toOption.get rfl

/-- A destination of type `*[]*User`, pointing at an empty list. -/
def userListDest : GoValue :=
  GoValue.ptr userListType (some (GoValue.slice (.ptr (.struct "User")) []))

/-- A handler that succeeds with the nil reference `(*[]*User)(nil)`: no list at all. -/
def nilUsersHandler : Handler :=
  fun _ _ => (GoValue.ptr userListType none, none)

/-- The builder that `New` makes from a query spec with `nilUsersHandler`. -/
def nilUsersState : config :=
  (New (countingDB 12)
    (some ((NewBuilder "SELECT u.* FROM users u" []).WithPaginationFunc
      (some nilUsersHandler)))).toOption.get rfl

/-- A backend on which every statement fails with one and the same error and affects no
row. -/
def failingDB : DB :=
  { scanCount := fun _ => none
    scan := fun _ dest => { Error := some (GoError.other 7), RowsAffected := 0, dest := dest }
    find := fun _ dest => { Error := some (GoError.other 7), RowsAffected := 0, dest := dest }
    rowScan := fun _ dest => (some (GoError.other 7), dest) }

/-- The builder that `New` makes from `usersBuilder` over `failingDB`. -/
def failingState : config := (New failingDB (some usersBuilder)).toOption.get rfl

/-- A handler that fails with an error of its own. -/
def failingHandler : Handler := fun _ _ => (GoValue.nil, some (GoError.other 9))

/-- The builder that `New` makes from a query spec with `failingHandler`. -/
def failingHandlerState : config :=
  (New (countingDB 12)
    (some ((NewBuilder "SELECT u.* FROM users u" []).WithPaginationFunc
      (some failingHandler)))).toOption.get rfl

/-- The builder that `New` makes from `usersBuilder` over a backend that counts `count` rows. -/
def freshState (count : Int) : config :=
  (New (countingDB count) (some usersBuilder)).toOption.get rfl

/-- The builder state of `New(db, usersBuilder).Page(page).Limit(limit)`. -/
def sampleState (count page limit : Int) : config :=
  ((freshState count).Page page).Limit limit

/-- The builder state of `New(db, usersBuilder).Where("a = ?", 1).Where("b = ?", 2)`. -/
def twoValueState : config :=
  (freshState 12).Wheres (fun _ => "")
    [(GoValue.str "a = ?", [GoValue.int 1]), (GoValue.str "b = ?", [GoValue.int 2])]

/-- The builder state of `TestFirstFunc`:
`New(db, builder).Page(1).Limit(5).Where("u.id = ?", 1)`. -/
def firstFuncState : config :=
  ((oneUserState.Page 1).Limit 5).Where (fun _ => "") (GoValue.str "u.id = ?") [GoValue.int 1]

/-! ## Lemmas on the arithmetic -/

theorem roundHalfEven_intCast (n : Int) : roundHalfEven (n : ℚ) = n := by
  simp [roundHalfEven]

theorem roundHalfEven_le {z : ℚ} {N : Int} (h : z ≤ N) : roundHalfEven z ≤ N := by
  unfold roundHalfEven
  have hf : ⌊z⌋ ≤ N := Int.floor_le_iff.mpr (by linarith)
  rcases eq_or_lt_of_le hf with heq | hlt
  · have hz : z = N := le_antisymm h (heq ▸ Int.floor_le z)
    subst hz
    simp
  · simp only []
    split_ifs <;> omega

theorem le_roundHalfEven {z : ℚ} {N : Int} (h : (N : ℚ) ≤ z) : N ≤ roundHalfEven z := by
  unfold roundHalfEven
  have hf : N ≤ ⌊z⌋ := Int.le_floor.mpr h
  simp only []
  split_ifs <;> omega

theorem succ_le_roundHalfEven {z : ℚ} {N : Int} (h : (N : ℚ) + 1 / 2 < z) :
    N + 1 ≤ roundHalfEven z := by
  unfold roundHalfEven
  have hf : N ≤ ⌊z⌋ := Int.le_floor.mpr (by linarith)
  simp only []
  rcases eq_or_lt_of_le hf with heq | hlt
  · have h1 : ¬ (z - (⌊z⌋ : ℚ) < 1 / 2) := by rw [← heq]; linarith
    have h2 : 1 / 2 < z - (⌊z⌋ : ℚ) := by rw [← heq]; linarith
    rw [if_neg h1, if_pos h2]
    omega
  · split_ifs <;> omega

theorem roundF64_of_pos {q : ℚ} (hq : 0 < q) :
    roundF64 q = (roundHalfEven (q / (2 : ℚ) ^ (Int.log 2 q - 52)) : ℚ)
      * (2 : ℚ) ^ (Int.log 2 q - 52) := by
  unfold roundF64
  rw [if_neg hq.ne', abs_of_pos hq]

theorem two_zpow_log_le {q : ℚ} (hq : 0 < q) : (2 : ℚ) ^ Int.log 2 q ≤ q := by
  have h := Int.zpow_log_le_self (b := 2) (r := q) (by norm_num) hq
  simpa using h

theorem lt_two_zpow_log_succ (q : ℚ) : q < (2 : ℚ) ^ (Int.log 2 q + 1) := by
  have h := Int.lt_zpow_succ_log_self (b := 2) (by norm_num) q
  simpa using h

theorem ulp_pos (e : Int) : (0 : ℚ) < (2 : ℚ) ^ e := zpow_pos (by norm_num) e

theorem ulp_mul_pow52 (e : Int) : ((2 ^ 52 : Int) : ℚ) * (2 : ℚ) ^ (e - 52) = (2 : ℚ) ^ e := by
  have h : ((2 ^ 52 : Int) : ℚ) = (2 : ℚ) ^ (52 : Int) := by norm_num
  rw [h, ← zpow_add₀ (by norm_num : (2 : ℚ) ≠ 0)]
  congr 1
  ring

theorem ulp_mul_pow53 (e : Int) :
    ((2 ^ 53 : Int) : ℚ) * (2 : ℚ) ^ (e - 52) = (2 : ℚ) ^ (e + 1) := by
  have h : ((2 ^ 53 : Int) : ℚ) = (2 : ℚ) ^ (53 : Int) := by norm_num
  rw [h, ← zpow_add₀ (by norm_num : (2 : ℚ) ≠ 0)]
  congr 1
  ring

/-- A positive number is rounded within its binade. -/
theorem roundF64_bounds {q : ℚ} (hq : 0 < q) :
    (2 : ℚ) ^ Int.log 2 q ≤ roundF64 q ∧ roundF64 q ≤ (2 : ℚ) ^ (Int.log 2 q + 1) := by
  rw [roundF64_of_pos hq]
  have hu := ulp_pos (Int.log 2 q - 52)
  have hlo : ((2 ^ 52 : Int) : ℚ) ≤ q / (2 : ℚ) ^ (Int.log 2 q - 52) := by
    rw [le_div_iff₀ hu, ulp_mul_pow52]
    exact two_zpow_log_le hq
  have hhi : q / (2 : ℚ) ^ (Int.log 2 q - 52) ≤ ((2 ^ 53 : Int) : ℚ) := by
    rw [div_le_iff₀ hu, ulp_mul_pow53]
    exact (lt_two_zpow_log_succ q).le
  have h1 : ((2 ^ 52 : Int) : ℚ) ≤ (roundHalfEven (q / (2 : ℚ) ^ (Int.log 2 q - 52)) : ℚ) := by
    exact_mod_cast le_roundHalfEven hlo
  have h2 : (roundHalfEven (q / (2 : ℚ) ^ (Int.log 2 q - 52)) : ℚ) ≤ ((2 ^ 53 : Int) : ℚ) := by
    exact_mod_cast roundHalfEven_le hhi
  constructor
  · rw [← ulp_mul_pow52]
    exact mul_le_mul_of_nonneg_right h1 hu.le
  · rw [← ulp_mul_pow53]
    exact mul_le_mul_of_nonneg_right h2 hu.le

/-- Below `2 ^ 53` the spacing divides one: whole numbers are whole multiples of it. -/
theorem intCast_div_ulp {L : Int} (hL : L ≤ 52) (z : Int) :
    (z : ℚ) / (2 : ℚ) ^ (L - 52) = ((z * 2 ^ (52 - L).toNat : Int) : ℚ) := by
  have h : (2 : ℚ) ^ (L - 52) = ((2 : ℚ) ^ ((52 - L).toNat : Int))⁻¹ := by
    rw [← zpow_neg, Int.toNat_of_nonneg (by omega)]
    congr 1
    ring
  rw [h, div_inv_eq_mul, zpow_natCast]
  push_cast
  ring

theorem roundF64_le_intCast {q : ℚ} (hq : 0 < q) (hL : Int.log 2 q ≤ 52) {z : Int}
    (h : q ≤ z) : roundF64 q ≤ z := by
  rw [roundF64_of_pos hq]
  have hu := ulp_pos (Int.log 2 q - 52)
  have h1 : q / (2 : ℚ) ^ (Int.log 2 q - 52) ≤ ((z * 2 ^ (52 - Int.log 2 q).toNat : Int) : ℚ) := by
    rw [← intCast_div_ulp hL]
    exact div_le_div_of_nonneg_right h hu.le
  have h2 := roundHalfEven_le h1
  have h3 : (roundHalfEven (q / (2 : ℚ) ^ (Int.log 2 q - 52)) : ℚ)
      ≤ ((z * 2 ^ (52 - Int.log 2 q).toNat : Int) : ℚ) := by exact_mod_cast h2
  rw [← intCast_div_ulp hL] at h3
  rwa [le_div_iff₀ hu] at h3

theorem intCast_lt_roundF64 {q : ℚ} (hq : 0 < q) (hL : Int.log 2 q ≤ 52) {z : Int}
    (h : (z : ℚ) + (2 : ℚ) ^ (Int.log 2 q - 52) / 2 < q) : (z : ℚ) < roundF64 q := by
  rw [roundF64_of_pos hq]
  have hu := ulp_pos (Int.log 2 q - 52)
  have h1 : ((z * 2 ^ (52 - Int.log 2 q).toNat : Int) : ℚ) + 1 / 2
      < q / (2 : ℚ) ^ (Int.log 2 q - 52) := by
    rw [← intCast_div_ulp hL, lt_div_iff₀ hu, add_mul, div_mul_cancel₀ _ hu.ne']
    linarith
  have h2 := succ_le_roundHalfEven h1
  have h3 : ((z * 2 ^ (52 - Int.log 2 q).toNat : Int) : ℚ) + 1
      ≤ (roundHalfEven (q / (2 : ℚ) ^ (Int.log 2 q - 52)) : ℚ) := by exact_mod_cast h2
  rw [← intCast_div_ulp hL] at h3
  have h4 : (z : ℚ) + (2 : ℚ) ^ (Int.log 2 q - 52)
      ≤ (roundHalfEven (q / (2 : ℚ) ^ (Int.log 2 q - 52)) : ℚ) * (2 : ℚ) ^ (Int.log 2 q - 52) := by
    have := mul_le_mul_of_nonneg_right h3 hu.le
    rwa [add_mul, div_mul_cancel₀ _ hu.ne', one_mul] at this
  linarith

theorem log_le_52 {q : ℚ} (hq : 0 < q) (h : q < 2 ^ 53) : Int.log 2 q ≤ 52 := by
  have h1 : q < ((2 : ℕ) : ℚ) ^ (53 : Int) := by
    have : (((2 : ℕ) : ℚ) ^ (53 : Int)) = 2 ^ 53 := by norm_num
    rw [this]; exact h
  have := (Int.lt_zpow_iff_log_lt (b := 2) (by norm_num) hq).mp h1
  omega

/-- An `int` in `[0, 2 ^ 53)` converts to `float64` without rounding. -/
theorem float64_exact {n : Int} (h0 : 0 ≤ n) (h : n < 2 ^ 53) : float64 n = (n : ℚ) := by
  unfold float64
  rcases eq_or_lt_of_le h0 with rfl | hpos
  · simp [roundF64]
  · have hq : (0 : ℚ) < (n : ℚ) := by exact_mod_cast hpos
    have hlt : (n : ℚ) < 2 ^ 53 := by exact_mod_cast h
    have hL := log_le_52 hq hlt
    rw [roundF64_of_pos hq, intCast_div_ulp hL, roundHalfEven_intCast, ← intCast_div_ulp hL,
      div_mul_cancel₀ _ (ulp_pos _).ne']

/-- An `int` of at least `2 ^ 53` converts to a `float64` of at least `2 ^ 53`. -/
theorem float64_large {n : Int} (h : 2 ^ 53 ≤ n) : (2 : ℚ) ^ 53 ≤ float64 n := by
  unfold float64
  have h53 : ((2 : ℕ) : ℚ) ^ (53 : Int) = 2 ^ 53 := by norm_num
  have hge : (2 : ℚ) ^ 53 ≤ (n : ℚ) := by exact_mod_cast h
  have hq : (0 : ℚ) < (n : ℚ) := lt_of_lt_of_le (by norm_num) hge
  have hL : (53 : Int) ≤ Int.log 2 (n : ℚ) :=
    (Int.zpow_le_iff_le_log (b := 2) (by norm_num) hq).mp (by rw [h53]; exact hge)
  calc (2 : ℚ) ^ 53 = (2 : ℚ) ^ (53 : Int) := by norm_num
    _ ≤ (2 : ℚ) ^ Int.log 2 (n : ℚ) := zpow_le_zpow_right₀ (by norm_num) hL
    _ ≤ roundF64 (n : ℚ) := (roundF64_bounds hq).1

theorem intOfF64_intCast {z : Int} (h1 : -(2 ^ 63) ≤ z) (h2 : z < 2 ^ 63) :
    intOfF64 (z : ℚ) = z := by
  unfold intOfF64
  simp only [Int.floor_intCast, Int.ceil_intCast, ite_self]
  rw [if_pos ⟨h1, h2⟩]

/-- The quotient of a positive number below `2 ^ 53` by a larger one rounds into `(0, 1]`. -/
theorem ceil_f64div_small {a b : ℚ} (ha : 0 < a) (hab : a < b) : ⌈f64div a b⌉ = 1 := by
  unfold f64div
  have hb : 0 < b := lt_trans ha hab
  have hq : 0 < a / b := div_pos ha hb
  have hq1 : a / b < 1 := (div_lt_one hb).mpr hab
  have hL : Int.log 2 (a / b) < 0 := by
    have h1 : a / b < ((2 : ℕ) : ℚ) ^ (0 : Int) := by simpa using hq1
    exact (Int.lt_zpow_iff_log_lt (b := 2) (by norm_num) hq).mp h1
  obtain ⟨hlo, hhi⟩ := roundF64_bounds hq
  have hpos : 0 < roundF64 (a / b) := lt_of_lt_of_le (ulp_pos _) hlo
  have hle : roundF64 (a / b) ≤ 1 := by
    calc roundF64 (a / b) ≤ (2 : ℚ) ^ (Int.log 2 (a / b) + 1) := hhi
      _ ≤ (2 : ℚ) ^ (0 : Int) := zpow_le_zpow_right₀ (by norm_num) (by omega)
      _ = 1 := by norm_num
  rw [Int.ceil_eq_iff]
  constructor
  · simpa using hpos
  · simpa using hle

/-- Below `2 ^ 53` the rounded quotient of two positive `int`s has the ceiling of the exact
quotient. -/
theorem ceil_f64div_exact {count limit : Int} (hc : 0 < count) (h : count < 2 ^ 53)
    (hl : 0 < limit) :
    ⌈f64div (count : ℚ) (limit : ℚ)⌉ = ⌈(count : ℚ) / (limit : ℚ)⌉ := by
  unfold f64div
  have hcq : (0 : ℚ) < count := by exact_mod_cast hc
  have hlq : (0 : ℚ) < limit := by exact_mod_cast hl
  have hl1 : (1 : ℚ) ≤ limit := by exact_mod_cast hl
  have hc53 : (count : ℚ) < 2 ^ 53 := by exact_mod_cast h
  set q : ℚ := (count : ℚ) / (limit : ℚ) with hqdef
  have hq : 0 < q := div_pos hcq hlq
  have hqc : q ≤ count := div_le_self hcq.le hl1
  have hL : Int.log 2 q ≤ 52 := log_le_52 hq (lt_of_le_of_lt hqc hc53)
  have hu := ulp_pos (Int.log 2 q - 52)
  -- the spacing is below `2 / limit`
  have hspace : (limit : ℚ) * (2 : ℚ) ^ (Int.log 2 q - 52) < 2 := by
    have h1 : (2 : ℚ) ^ Int.log 2 q ≤ q := two_zpow_log_le hq
    have h2 : (limit : ℚ) * (2 : ℚ) ^ Int.log 2 q ≤ count := by
      have := mul_le_mul_of_nonneg_left h1 hlq.le
      rwa [hqdef, mul_div_cancel₀ _ hlq.ne'] at this
    have h3 : (2 : ℚ) ^ Int.log 2 q = ((2 ^ 52 : Int) : ℚ) * (2 : ℚ) ^ (Int.log 2 q - 52) :=
      (ulp_mul_pow52 _).symm
    rw [h3] at h2
    have h4 : ((2 ^ 52 : Int) : ℚ) = 2 ^ 52 := by norm_num
    rw [h4] at h2
    nlinarith
  rw [Int.ceil_eq_iff]
  constructor
  · -- the exact quotient exceeds `⌈q⌉ - 1` by at least `1 / limit`
    have hlt : ((⌈q⌉ - 1 : Int) : ℚ) < q := by
      have := Int.ceil_lt_add_one q
      push_cast
      linarith
    have hint : (⌈q⌉ - 1) * limit < count := by
      have h1 : ((⌈q⌉ - 1 : Int) : ℚ) * limit < count := by
        have := mul_lt_mul_of_pos_right hlt hlq
        rwa [hqdef, div_mul_cancel₀ _ hlq.ne'] at this
      exact_mod_cast h1
    have hstep : ((⌈q⌉ - 1 : Int) : ℚ) + 1 / limit ≤ q := by
      have h1 : (⌈q⌉ - 1) * limit + 1 ≤ count := by omega
      have h2 : ((⌈q⌉ - 1 : Int) : ℚ) * limit + 1 ≤ count := by exact_mod_cast h1
      rw [hqdef, le_div_iff₀ hlq, add_mul, div_mul_cancel₀ _ hlq.ne']
      exact h2
    have hhalf : (2 : ℚ) ^ (Int.log 2 q - 52) / 2 < 1 / limit := by
      rw [lt_div_iff₀ hlq]
      linarith
    have := intCast_lt_roundF64 hq hL (z := ⌈q⌉ - 1) (by linarith)
    push_cast at this
    exact this
  · exact roundF64_le_intCast hq hL (Int.le_ceil q)

/-- The page count of `PagingFunc` for a row count below `2 ^ 53`. -/
theorem totalPage_of_lt_pow53 {count limit : Int} (h0 : 0 ≤ count) (h : count < 2 ^ 53)
    (hl : 0 < limit) :
    intOfF64 (mathCeil (f64div (float64 count) (float64 limit)))
      = ⌈(count : ℚ) / (limit : ℚ)⌉ := by
  have hlq : (0 : ℚ) < limit := by exact_mod_cast hl
  have hl1 : (1 : ℚ) ≤ limit := by exact_mod_cast hl
  have hc53 : (count : ℚ) < 2 ^ 53 := by exact_mod_cast h
  rw [float64_exact h0 h]
  unfold mathCeil
  rcases eq_or_lt_of_le h0 with rfl | hpos
  · simp [f64div, roundF64, intOfF64]
  · have hcq : (0 : ℚ) < count := by exact_mod_cast hpos
    have hceil : ⌈f64div (count : ℚ) (float64 limit)⌉ = ⌈(count : ℚ) / (limit : ℚ)⌉ := by
      rcases lt_or_le limit (2 ^ 53) with hsm | hbig
      · rw [float64_exact hl.le hsm]
        exact ceil_f64div_exact hpos h hl
      · have hy := float64_large hbig
        rw [ceil_f64div_small hcq (lt_of_lt_of_le hc53 hy)]
        symm
        rw [Int.ceil_eq_iff]
        have hbq : (2 : ℚ) ^ 53 ≤ limit := by exact_mod_cast hbig
        constructor
        · simpa using div_pos hcq hlq
        · have : (count : ℚ) / limit ≤ 1 := (div_le_one hlq).mpr (by linarith)
          simpa using this
    rw [hceil]
    apply intOfF64_intCast
    · have : (0 : Int) ≤ ⌈(count : ℚ) / (limit : ℚ)⌉ :=
        Int.ceil_nonneg (div_nonneg hcq.le hlq.le)
      omega
    · have h1 : ⌈(count : ℚ) / (limit : ℚ)⌉ ≤ count :=
        Int.ceil_le.mpr (div_le_self hcq.le hl1)
      omega

/-! ## Lemmas on `PagingFunc` -/

/-- The builder as `PagingFunc` uses it: the page is at least one. -/
theorem GetPagingFunc_page (c : config) (p : Int) (f : List Handler) :
    config.GetPagingFunc { c with page := p } f = c.GetPagingFunc f := rfl

theorem GetPagingFunc_norm (c : config) (f : List Handler) :
    config.GetPagingFunc c.normPage f = c.GetPagingFunc f := by
  unfold config.normPage
  split_ifs <;> rfl

/-- With a handler resolved, `PagingFunc` returns the body on the normalised builder. -/
theorem PagingFunc_of_handler (c : config) (f : List Handler) (fn : Handler)
    (hfn : c.GetPagingFunc f = some fn) :
    c.PagingFunc f = .ok (c.normPage.pagingBody fn) := by
  have h := GetPagingFunc_norm c f
  rw [hfn] at h
  show (match c.normPage.GetPagingFunc f with
    | none => Except.error GoPanic.fnNotImplement
    | some fn => Except.ok (c.normPage.pagingBody fn)) = _
  rw [h]

theorem PagingFunc_of_no_handler (c : config) (f : List Handler)
    (hfn : c.GetPagingFunc f = none) : c.PagingFunc f = .error .fnNotImplement := by
  have h := GetPagingFunc_norm c f
  rw [hfn] at h
  show (match c.normPage.GetPagingFunc f with
    | none => Except.error GoPanic.fnNotImplement
    | some fn => Except.ok (c.normPage.pagingBody fn)) = _
  rw [h]

theorem pagingBody_cfg (c : config) (fn : Handler) : (c.pagingBody fn).cfg = c := rfl

theorem pagingBody_dataQuery (c : config) (fn : Handler) :
    (c.pagingBody fn).dataQuery = { sql := c.build.1, vars := c.mergeValues } := rfl

theorem pagingBody_countQuery (c : config) (fn : Handler) :
    (c.pagingBody fn).countQuery
      = { sql := countWrapText c.build.2, vars := c.mergeValues } := rfl

theorem pagingBody_TotalRecord (c : config) (fn : Handler) :
    (c.pagingBody fn).pagination.TotalRecord = c.count (c.pagingBody fn).countQuery := by
  unfold config.pagingBody
  dsimp only
  split_ifs <;> rfl

theorem pagingBody_Records (c : config) (fn : Handler) :
    (c.pagingBody fn).pagination.Records = (fn c.db (c.pagingBody fn).dataQuery).1 := by
  unfold config.pagingBody
  dsimp only
  split_ifs <;> rfl

theorem pagingBody_Page (c : config) (fn : Handler) :
    (c.pagingBody fn).pagination.Page = c.page := by
  unfold config.pagingBody
  dsimp only
  split_ifs <;> rfl

theorem pagingBody_Offset (c : config) (fn : Handler) :
    (c.pagingBody fn).pagination.Offset = wrapInt (wrapInt (c.page - 1) * c.limit) := by
  unfold config.pagingBody
  dsimp only
  split_ifs <;> rfl

theorem pagingBody_PerPage (c : config) (fn : Handler) :
    (c.pagingBody fn).pagination.PerPage
      = (if c.limit > 0 then c.limit else (c.pagingBody fn).pagination.TotalRecord) := by
  unfold config.pagingBody
  dsimp only
  split_ifs <;> rfl

theorem pagingBody_TotalPage (c : config) (fn : Handler) :
    (c.pagingBody fn).pagination.TotalPage
      = (if c.limit > 0 then
          intOfF64 (mathCeil (f64div (float64 (c.pagingBody fn).pagination.TotalRecord)
            (float64 c.limit)))
        else 1) := by
  unfold config.pagingBody
  dsimp only
  split_ifs <;> rfl

theorem pagingBody_PrevPage (c : config) (fn : Handler) :
    (c.pagingBody fn).pagination.PrevPage
      = (if c.page > 1 then wrapInt (c.page - 1) else c.page) := by
  unfold config.pagingBody
  dsimp only
  split_ifs <;> rfl

theorem pagingBody_HasNext (c : config) (fn : Handler) :
    (c.pagingBody fn).pagination.HasNext
      = decide ((c.pagingBody fn).pagination.TotalPage > c.page) := by
  unfold config.pagingBody
  dsimp only
  split_ifs <;> rfl

theorem pagingBody_HasPrev (c : config) (fn : Handler) :
    (c.pagingBody fn).pagination.HasPrev = decide (c.page > 1) := by
  unfold config.pagingBody
  dsimp only
  split_ifs <;> rfl

theorem pagingBody_NextPage (c : config) (fn : Handler) :
    (c.pagingBody fn).pagination.NextPage
      = (if (c.pagingBody fn).pagination.TotalPage > c.page then wrapInt (c.page + 1)
        else c.page) := by
  unfold config.pagingBody
  dsimp only
  split_ifs <;> first | rfl | (exfalso; simp_all)

/-! ## Concrete roundings and wrap-around -/

theorem log_two_eq {q : ℚ} {e : Int} (hq : 0 < q) (h1 : (2 : ℚ) ^ e ≤ q)
    (h2 : q < (2 : ℚ) ^ (e + 1)) : Int.log 2 q = e := by
  have a : e ≤ Int.log 2 q :=
    (Int.zpow_le_iff_le_log (b := 2) (by norm_num) hq).mp (by simpa using h1)
  have b : Int.log 2 q < e + 1 :=
    (Int.lt_zpow_iff_log_lt (b := 2) (by norm_num) hq).mp (by simpa using h2)
  omega

theorem roundHalfEven_tie_even (n : Int) (h : n % 2 = 0) :
    roundHalfEven ((n : ℚ) + 1 / 2) = n := by
  unfold roundHalfEven
  have hf : ⌊(n : ℚ) + 1 / 2⌋ = n := by
    rw [Int.floor_eq_iff]
    constructor <;> linarith
  simp only [hf]
  norm_num
  exact Int.dvd_of_emod_eq_zero h

/-- The `int` `2 ^ 53 + 1` is the least positive one that `float64` does not hold: the tie
between `2 ^ 53` and `2 ^ 53 + 2` goes to the even significand. -/
theorem float64_pow53_succ : float64 (2 ^ 53 + 1) = 2 ^ 53 := by
  unfold float64
  have hq : (0 : ℚ) < ((2 ^ 53 + 1 : Int) : ℚ) := by norm_num
  have hlog : Int.log 2 ((2 ^ 53 + 1 : Int) : ℚ) = 53 :=
    log_two_eq hq (by norm_num) (by norm_num)
  rw [roundF64_of_pos hq, hlog]
  have h2 : ((2 ^ 53 + 1 : Int) : ℚ) / (2 : ℚ) ^ ((53 : Int) - 52)
      = ((2 ^ 52 : Int) : ℚ) + 1 / 2 := by norm_num
  rw [h2, roundHalfEven_tie_even _ (by norm_num)]
  norm_num

theorem roundF64_pow53 : roundF64 (2 ^ 53) = 2 ^ 53 := by
  have hq : (0 : ℚ) < 2 ^ 53 := by norm_num
  have hlog : Int.log 2 ((2 : ℚ) ^ 53) = 53 := log_two_eq hq (by norm_num) (by norm_num)
  rw [roundF64_of_pos hq, hlog]
  have h2 : ((2 : ℚ) ^ 53) / (2 : ℚ) ^ ((53 : Int) - 52) = ((2 ^ 52 : Int) : ℚ) := by norm_num
  rw [h2, roundHalfEven_intCast]
  norm_num

/-- The page count that the code computes for `2 ^ 53 + 1` rows and a limit of one. -/
theorem totalPage_pow53_succ :
    intOfF64 (mathCeil (f64div (float64 (2 ^ 53 + 1)) (float64 1))) = 2 ^ 53 := by
  have h1 : float64 1 = 1 := by
    have := float64_exact (n := 1) (by norm_num) (by norm_num)
    simpa using this
  rw [float64_pow53_succ, h1]
  unfold f64div mathCeil
  rw [div_one, roundF64_pow53]
  have h : ⌈((2 : ℚ) ^ 53)⌉ = 2 ^ 53 := by
    rw [Int.ceil_eq_iff]
    constructor <;> norm_num
  rw [h]
  exact intOfF64_intCast (by norm_num) (by norm_num)

theorem intOfF64_range (x : ℚ) : -(2 ^ 63) ≤ intOfF64 x ∧ intOfF64 x < 2 ^ 63 := by
  unfold intOfF64
  dsimp only
  split_ifs with h h' h'
  · exact h'
  · norm_num
  · exact h'
  · norm_num

theorem wrapInt_of_isInt64 {x : Int} (h : IsInt64 x) : wrapInt x = x := by
  unfold IsInt64 at h
  unfold wrapInt
  rw [Int.emod_eq_of_lt (by omega) (by omega)]
  omega

theorem wrapInt_mul_left (a b : Int) : wrapInt (wrapInt a * b) = wrapInt (a * b) := by
  unfold wrapInt
  have h : (((a + 2 ^ 63) % 2 ^ 64 - 2 ^ 63) * b + 2 ^ 63) % 2 ^ 64
      = (a * b + 2 ^ 63) % 2 ^ 64 := by
    have e : ((a + 2 ^ 63) % 2 ^ 64 - 2 ^ 63) * b + 2 ^ 63
        = (a * b + 2 ^ 63) + (-((a + 2 ^ 63) / 2 ^ 64) * b) * 2 ^ 64 := by
      have h3 : (a + 2 ^ 63) % 2 ^ 64 = a + 2 ^ 63 - 2 ^ 64 * ((a + 2 ^ 63) / 2 ^ 64) := by
        have := Int.emod_add_ediv (a + 2 ^ 63) (2 ^ 64)
        omega
      rw [h3]
      ring
    rw [e, Int.add_mul_emod_self]
  rw [h]

theorem normPage_limit (c : config) : c.normPage.limit = c.limit := by
  unfold config.normPage
  split_ifs <;> rfl

theorem normPage_db (c : config) : c.normPage.db = c.db := by
  unfold config.normPage
  split_ifs <;> rfl

theorem normPage_page (c : config) : c.normPage.page = max c.page 1 := by
  unfold config.normPage
  split_ifs with h
  · show (1 : Int) = max c.page 1
    exact (max_eq_right (by omega)).symm
  · exact (max_eq_left (by omega)).symm

/-! ## Page arithmetic of `PagingFunc` -/

/-- C1 (amended): with a handler resolved, `PagingFunc` returns, and `TotalRecord` is the
scanned count.  For every `limit > 0` it reports `PerPage = limit` and, for every total count
in `[0, 2 ^ 53)`, `TotalPage = ⌈count / limit⌉`; for every `limit ≤ 0` it reports
`TotalPage = 1` and `PerPage = count`. -/
theorem C1_totalPage_perPage (c : config) (f : List Handler) (fn : Handler)
    (hfn : c.GetPagingFunc f = some fn) :
    ∃ r, c.PagingFunc f = .ok r ∧
      r.pagination.TotalRecord = c.count r.countQuery ∧
      (0 < c.limit →
        r.pagination.PerPage = c.limit ∧
        (0 ≤ r.pagination.TotalRecord → r.pagination.TotalRecord < 2 ^ 53 →
          r.pagination.TotalPage = ⌈(r.pagination.TotalRecord : ℚ) / (c.limit : ℚ)⌉)) ∧
      (c.limit ≤ 0 →
        r.pagination.TotalPage = 1 ∧ r.pagination.PerPage = r.pagination.TotalRecord) := by
  refine ⟨_, PagingFunc_of_handler c f fn hfn, ?_, ?_, ?_⟩
  · rw [pagingBody_TotalRecord]
    unfold config.count
    rw [normPage_db]
  · intro hl
    have hl' : c.normPage.limit > 0 := by
      rw [normPage_limit]; exact hl
    refine ⟨?_, ?_⟩
    · rw [pagingBody_PerPage, if_pos hl', normPage_limit]
    · intro h0 h53
      rw [pagingBody_TotalPage, if_pos hl', normPage_limit]
      exact totalPage_of_lt_pow53 h0 h53 hl
  · intro hl
    have hl' : ¬ c.normPage.limit > 0 := by
      rw [normPage_limit]; omega
    refine ⟨?_, ?_⟩
    · rw [pagingBody_TotalPage, if_neg hl']
    · rw [pagingBody_PerPage, if_neg hl']

/-- C1, witness: 12 rows with a limit of 5 are 3 pages of 5. -/
theorem C1_witness :
    ∃ r, (sampleState 12 2 5).PagingFunc [] = .ok r ∧
      r.pagination.TotalRecord = 12 ∧ r.pagination.PerPage = 5 ∧
      r.pagination.TotalPage = 3 := by
  obtain ⟨r, hr, hc, hpos, _⟩ :=
    C1_totalPage_perPage (sampleState 12 2 5) [] emptyUsersHandler rfl
  have hTR : r.pagination.TotalRecord = 12 := hc
  obtain ⟨hper, htot⟩ := hpos (by decide)
  refine ⟨r, hr, hTR, hper, ?_⟩
  rw [htot (by rw [hTR]; decide) (by rw [hTR]; decide), hTR]
  have hlim : (sampleState 12 2 5).limit = 5 := rfl
  rw [hlim, Int.ceil_eq_iff]
  constructor <;> norm_num

/-- C1, as stated, fails: for `2 ^ 53 + 1` rows and a limit of 1 the conversion to `float64`
rounds the count, and `TotalPage` is `2 ^ 53` while `⌈count / limit⌉` is `2 ^ 53 + 1`. -/
theorem C1_counterexample :
    ∃ r, (sampleState (2 ^ 53 + 1) 1 1).PagingFunc [] = .ok r ∧
      0 < (sampleState (2 ^ 53 + 1) 1 1).limit ∧
      0 ≤ r.pagination.TotalRecord ∧
      r.pagination.TotalPage
        ≠ ⌈(r.pagination.TotalRecord : ℚ) / ((sampleState (2 ^ 53 + 1) 1 1).limit : ℚ)⌉ := by
  refine ⟨_, PagingFunc_of_handler _ [] emptyUsersHandler rfl, by decide, ?_, ?_⟩
  · rw [pagingBody_TotalRecord]
    show (0 : Int) ≤ 2 ^ 53 + 1
    norm_num
  · have hTR : ∀ c' : config, c'.db = countingDB (2 ^ 53 + 1) → ∀ fn,
        (c'.pagingBody fn).pagination.TotalRecord = 2 ^ 53 + 1 := by
      intro c' hdb fn
      rw [pagingBody_TotalRecord]
      unfold config.count
      rw [hdb]
      rfl
    rw [pagingBody_TotalPage, hTR _ (by rw [normPage_db]; rfl), normPage_limit]
    have hlim : (sampleState (2 ^ 53 + 1) 1 1).limit = 1 := rfl
    rw [hlim, if_pos (by decide), totalPage_pow53_succ]
    have hc : ⌈(((2 ^ 53 + 1 : Int)) : ℚ) / ((1 : Int) : ℚ)⌉ = 2 ^ 53 + 1 := by
      rw [Int.ceil_eq_iff]
      constructor <;> norm_num
    rw [hc]
    norm_num

/-- C2: for the `Pagination` that `PagingFunc` returns, whatever the count, the limit and the
page (an `int`) are, `HasNext` holds exactly when `TotalPage > Page`, `HasPrev` holds exactly
when `Page > 1`, `NextPage` is `Page + 1` when `HasNext` holds and `Page` otherwise, and
`PrevPage` is `Page - 1` when `Page > 1` and `Page` otherwise. -/
theorem C2_navigation (c : config) (f : List Handler) (fn : Handler)
    (hfn : c.GetPagingFunc f = some fn) (hpage : IsInt64 c.page) :
    ∃ r, c.PagingFunc f = .ok r ∧
      (r.pagination.HasNext = true ↔ r.pagination.TotalPage > r.pagination.Page) ∧
      (r.pagination.HasPrev = true ↔ r.pagination.Page > 1) ∧
      (r.pagination.HasNext = true → r.pagination.NextPage = r.pagination.Page + 1) ∧
      (r.pagination.HasNext = false → r.pagination.NextPage = r.pagination.Page) ∧
      (r.pagination.Page > 1 → r.pagination.PrevPage = r.pagination.Page - 1) ∧
      (¬ r.pagination.Page > 1 → r.pagination.PrevPage = r.pagination.Page) := by
  refine ⟨_, PagingFunc_of_handler c f fn hfn, ?_, ?_, ?_, ?_, ?_, ?_⟩
  · rw [pagingBody_HasNext, pagingBody_Page]
    simp
  · rw [pagingBody_HasPrev, pagingBody_Page]
    simp
  · rw [pagingBody_HasNext, pagingBody_NextPage, pagingBody_Page]
    intro h
    have hlt := of_decide_eq_true h
    rw [if_pos hlt]
    apply wrapInt_of_isInt64
    have hrange : (c.normPage.pagingBody fn).pagination.TotalPage < 2 ^ 63 := by
      rw [pagingBody_TotalPage]
      split_ifs
      · exact (intOfF64_range _).2
      · norm_num
    have hp := normPage_page c
    unfold IsInt64 at hpage ⊢
    have h1 : (1 : Int) ≤ max c.page 1 := le_max_right _ _
    rw [hp] at hlt ⊢
    omega
  · rw [pagingBody_HasNext, pagingBody_NextPage, pagingBody_Page]
    intro h
    have hnlt := of_decide_eq_false h
    rw [if_neg hnlt]
  · rw [pagingBody_PrevPage, pagingBody_Page]
    intro h
    rw [if_pos h]
    apply wrapInt_of_isInt64
    have hp := normPage_page c
    unfold IsInt64 at hpage ⊢
    rw [hp] at h ⊢
    have h2 : max c.page 1 = c.page := max_eq_left (by
      rcases le_total c.page 1 with h3 | h3
      · rw [max_eq_right h3] at h; omega
      · exact h3)
    omega
  · rw [pagingBody_PrevPage, pagingBody_Page]
    intro h
    rw [if_neg h]

/-- C2, witness: the builder of the scenario (limit 5, page 2, 12 rows) is on page 2 of 3, so
`HasNext` and `HasPrev` hold, `NextPage` is 3 and `PrevPage` is 1. -/
theorem C2_witness :
    ∃ r, (sampleState 12 2 5).PagingFunc [] = .ok r ∧
      r.pagination.Page = 2 ∧ r.pagination.TotalPage = 3 ∧
      r.pagination.HasNext = true ∧ r.pagination.HasPrev = true ∧
      r.pagination.NextPage = 3 ∧ r.pagination.PrevPage = 1 ∧
      (r.pagination.HasNext = true ↔ r.pagination.TotalPage > r.pagination.Page) ∧
      (r.pagination.HasPrev = true ↔ r.pagination.Page > 1) ∧
      (r.pagination.HasNext = true → r.pagination.NextPage = r.pagination.Page + 1) ∧
      (r.pagination.HasNext = false → r.pagination.NextPage = r.pagination.Page) ∧
      (r.pagination.Page > 1 → r.pagination.PrevPage = r.pagination.Page - 1) ∧
      (¬ r.pagination.Page > 1 → r.pagination.PrevPage = r.pagination.Page) := by
  obtain ⟨r, hr, h1, h2, h3, h4, h5, h6⟩ :=
    C2_navigation (sampleState 12 2 5) [] emptyUsersHandler rfl (by decide)
  have hbody : r = (sampleState 12 2 5).normPage.pagingBody emptyUsersHandler := by
    have h := PagingFunc_of_handler (sampleState 12 2 5) [] emptyUsersHandler rfl
    rw [h] at hr
    cases hr
    rfl
  have hpage : r.pagination.Page = 2 := by
    rw [hbody, pagingBody_Page, normPage_page]
    decide
  have htot : r.pagination.TotalPage = 3 := by
    have hTR : ((sampleState 12 2 5).normPage.pagingBody emptyUsersHandler).pagination.TotalRecord
        = 12 := by
      rw [pagingBody_TotalRecord]
      rfl
    have hlim : (sampleState 12 2 5).normPage.limit = 5 := by
      rw [normPage_limit]
      rfl
    rw [hbody, pagingBody_TotalPage, hTR, hlim, if_pos (by decide),
      totalPage_of_lt_pow53 (by decide) (by decide) (by decide), Int.ceil_eq_iff]
    constructor <;> norm_num
  have hnext : r.pagination.HasNext = true := h1.mpr (by rw [htot, hpage]; decide)
  have hprev : r.pagination.HasPrev = true := h2.mpr (by rw [hpage]; decide)
  refine ⟨r, hr, hpage, htot, hnext, hprev, ?_, ?_, h1, h2, h3, h4, h5, h6⟩
  · rw [h3 hnext, hpage]
    rfl
  · rw [h5 (by rw [hpage]; decide), hpage]
    rfl

/-- C3 (amended): `PagingFunc` reports `Page = max(page, 1)` and `Offset = (Page - 1) * limit`
in the arithmetic of `int`, that is reduced modulo `2 ^ 64` into the signed range: the `Offset`
is the product `(Page - 1) * limit` itself whenever that product is an `int`, and it is `0` for
every `page ≤ 1` (zero and negative pages included) whatever the limit is. -/
theorem C3_page_offset (c : config) (f : List Handler) (fn : Handler)
    (hfn : c.GetPagingFunc f = some fn) :
    ∃ r, c.PagingFunc f = .ok r ∧
      r.pagination.Page = max c.page 1 ∧
      r.pagination.Offset = wrapInt ((r.pagination.Page - 1) * c.limit) ∧
      (IsInt64 ((r.pagination.Page - 1) * c.limit) →
        r.pagination.Offset = (r.pagination.Page - 1) * c.limit) ∧
      (c.page ≤ 1 → r.pagination.Offset = 0) := by
  have hoff : (c.normPage.pagingBody fn).pagination.Offset
      = wrapInt (((c.normPage.pagingBody fn).pagination.Page - 1) * c.limit) := by
    rw [pagingBody_Offset, pagingBody_Page, wrapInt_mul_left, normPage_limit]
  refine ⟨_, PagingFunc_of_handler c f fn hfn, ?_, hoff, ?_, ?_⟩
  · rw [pagingBody_Page, normPage_page]
  · intro h
    rw [hoff, wrapInt_of_isInt64 h]
  · intro h
    rw [hoff, pagingBody_Page, normPage_page, max_eq_right h]
    simp [wrapInt]

/-- C3, witness: page 2 with a limit of 5 starts at offset 5. -/
theorem C3_witness :
    ∃ r, (sampleState 12 2 5).PagingFunc [] = .ok r ∧
      r.pagination.Page = 2 ∧ r.pagination.Offset = 5 := by
  obtain ⟨r, hr, hp, _, hoff, _⟩ :=
    C3_page_offset (sampleState 12 2 5) [] emptyUsersHandler rfl
  have hp2 : r.pagination.Page = 2 := hp
  have hlim : (sampleState 12 2 5).limit = 5 := rfl
  rw [hp2, hlim] at hoff
  exact ⟨r, hr, hp2, hoff (by decide)⟩

/-- C3, as stated, fails: for page `2 ^ 62 + 1` and a limit of 4 the product `(page - 1) * limit`
is `2 ^ 64`, which is no `int`, and the reported `Offset` is `0`. -/
theorem C3_counterexample :
    ∃ r, (sampleState 12 (2 ^ 62 + 1) 4).PagingFunc [] = .ok r ∧
      0 < (sampleState 12 (2 ^ 62 + 1) 4).limit ∧
      1 ≤ (sampleState 12 (2 ^ 62 + 1) 4).page ∧
      IsInt64 (sampleState 12 (2 ^ 62 + 1) 4).page ∧
      r.pagination.Offset = 0 ∧
      r.pagination.Offset
        ≠ ((sampleState 12 (2 ^ 62 + 1) 4).page - 1) * (sampleState 12 (2 ^ 62 + 1) 4).limit := by
  have hoff : ((sampleState 12 (2 ^ 62 + 1) 4).normPage.pagingBody
      emptyUsersHandler).pagination.Offset = 0 := by
    rw [pagingBody_Offset, wrapInt_mul_left, normPage_limit, normPage_page]
    decide
  refine ⟨_, PagingFunc_of_handler _ [] emptyUsersHandler rfl, by decide, by decide,
    by decide, hoff, ?_⟩
  rw [hoff]
  decide

/-! ## Errors and handler resolution -/

theorem pagingBody_pagination_congr (c c' : config) (fn fn' : Handler)
    (hdb : c'.db = c.db) (hbuild : c'.build = c.build) (hvals : c'.mergeValues = c.mergeValues)
    (hpage : c'.page = c.page) (hlimit : c'.limit = c.limit)
    (hrec : ∀ db q, (fn' db q).1 = (fn db q).1) :
    (c'.pagingBody fn').pagination = (c.pagingBody fn).pagination := by
  unfold config.pagingBody config.count
  simp only [hdb, hbuild, hvals, hpage, hlimit, hrec]

/-- C4 (what the code does): `PagingFunc` has no error result and drops the error of the
handler.  For every builder, every record function and every error, the call over the handler
that fails with that error returns, and returns the very `Pagination` of the call over the
handler that succeeds with the same records. -/
theorem C4_data_error_dropped (c : config) (b : Builder) (records : DB → RawQuery → GoValue)
    (err : GoError) :
    ∃ r r',
      config.PagingFunc
          { c with qf := some (b.WithPaginationFunc (some fun db q => (records db q, some err))) }
          [] = .ok r ∧
      config.PagingFunc
          { c with qf := some (b.WithPaginationFunc (some fun db q => (records db q, none))) }
          [] = .ok r' ∧
      r.pagination = r'.pagination := by
  refine ⟨_, _, PagingFunc_of_handler _ [] _ rfl, PagingFunc_of_handler _ [] _ rfl, ?_⟩
  apply pagingBody_pagination_congr
  · rw [normPage_db, normPage_db]
  · unfold config.normPage
    dsimp only
    split_ifs <;> rfl
  · unfold config.normPage
    dsimp only
    split_ifs <;> rfl
  · rw [normPage_page, normPage_page]
  · rw [normPage_limit, normPage_limit]
  · intro db q
    rfl

/-- A builder made by `New` resolves its handler from the query spec alone. -/
theorem GetPagingFunc_of_New (db : DB) (b : Builder) (c : config)
    (h : New db (some b) = .ok c) (f : List Handler) :
    c.GetPagingFunc f = b.paginationFn := by
  have hc : c = _ := (Except.ok.inj h).symm
  subst hc
  rfl

theorem fetch_of_no_handler (c : config) (dest : GoValue) (f : List Handler)
    (hdest : (reflectValueOf dest).Kind = Kind.Ptr) (hfn : c.GetPagingFunc f = none) :
    c.fetch dest f = .error .fnNotImplement := by
  unfold config.fetch
  simp only [hdest, hfn, ne_eq, not_true_eq_false, if_false]

/-- C5 (what the code does): on a builder made by `New` from a query spec without a handler, a
handler supplied at call time is not used: `GetPagingFunc` yields no handler, and `PagingFunc`,
`FindFunc` and `FirstFunc` (with a pointer destination) abort with the fatal error. -/
theorem C5_call_time_handler_ignored :
    New (countingDB 12) (some bareBuilder) = .ok bareState ∧
      (bareState.GetPagingFunc [emptyUsersHandler]).isNone = true ∧
      bareState.PagingFunc [emptyUsersHandler] = .error .fnNotImplement ∧
      (reflectValueOf userDest).Kind = Kind.Ptr ∧
      bareState.FindFunc userDest [emptyUsersHandler] = .error .fnNotImplement ∧
      bareState.FirstFunc userDest [emptyUsersHandler] = .error .fnNotImplement := by
  refine ⟨rfl, rfl, ?_, rfl, ?_, ?_⟩
  · exact PagingFunc_of_no_handler bareState [emptyUsersHandler] rfl
  · exact fetch_of_no_handler bareState userDest [emptyUsersHandler] rfl rfl
  · exact fetch_of_no_handler { bareState with limit := 1 } userDest [emptyUsersHandler] rfl rfl

/-! ## Predicates and bound values -/

theorem Where_named (render : GoValue → String) (c : config) (q : GoValue)
    (args : List GoValue) (hq : isNamedQuery q = true) :
    (c.Where render q args).RawSQLString = c.RawSQLString ∧
      (c.Where render q args).countRawSQL = c.countRawSQL ∧
      (c.Where render q args).hasWhere = c.hasWhere ∧
      (c.Where render q args).whereValues = c.whereValues := by
  cases q <;> simp [isNamedQuery] at hq <;> exact ⟨rfl, rfl, rfl, rfl⟩

theorem Where_fragment (render : GoValue → String) (c : config) (q : GoValue)
    (args : List GoValue) (hq : isNamedQuery q = false) :
    (c.Where render q args).RawSQLString
        = c.RawSQLString ++ (if c.hasWhere then " AND " else " WHERE ") ++ sprintV render q ∧
      (c.Where render q args).hasWhere = true ∧
      (c.Where render q args).whereValues = c.whereValues ++ args ∧
      (c.Where render q args).namedWhereValues = c.namedWhereValues := by
  cases q <;> simp [isNamedQuery] at hq <;>
    (unfold config.Where
     dsimp only
     cases hw : c.hasWhere <;> cases args <;> simp [hw] <;> split_ifs <;> simp [hw])

theorem Wheres_cons (render : GoValue → String) (c : config) (call : GoValue × List GoValue)
    (calls : List (GoValue × List GoValue)) :
    c.Wheres render (call :: calls) = (c.Where render call.1 call.2).Wheres render calls := rfl

theorem Wheres_hasWhere (render : GoValue → String) (calls : List (GoValue × List GoValue)) :
    ∀ c : config, (c.Wheres render calls).hasWhere
      = (c.hasWhere || calls.any fun call => !isNamedQuery call.1) := by
  induction calls with
  | nil => intro c; simp [config.Wheres]
  | cons call rest ih =>
    intro c
    rw [Wheres_cons, ih, List.any_cons]
    cases hq : isNamedQuery call.1
    · rw [(Where_fragment render c call.1 call.2 hq).2.1]
      simp
    · rw [(Where_named render c call.1 call.2 hq).2.2.1]
      simp

theorem Wheres_whereValues (render : GoValue → String)
    (calls : List (GoValue × List GoValue)) :
    ∀ c : config, (c.Wheres render calls).whereValues = c.whereValues ++ positionalArgs calls := by
  induction calls with
  | nil => intro c; simp [config.Wheres, positionalArgs]
  | cons call rest ih =>
    intro c
    rw [Wheres_cons, ih, positionalArgs]
    cases hq : isNamedQuery call.1
    · rw [(Where_fragment render c call.1 call.2 hq).2.2.1]
      simp
    · rw [(Where_named render c call.1 call.2 hq).2.2.2]
      simp

theorem Wheres_fragments_named (render : GoValue → String)
    (frags : List (String × GoValue)) :
    ∀ c : config,
      (c.Wheres render (frags.map fun p => (GoValue.str p.1, [p.2]))).namedWhereValues
        = c.namedWhereValues := by
  induction frags with
  | nil => intro c; rfl
  | cons p rest ih =>
    intro c
    rw [List.map_cons, Wheres_cons, ih]
    exact (Where_fragment render c (GoValue.str p.1) [p.2] rfl).2.2.2

theorem positionalArgs_fragments (frags : List (String × GoValue)) (m : List (String × GoValue)) :
    positionalArgs ((frags.map fun p => (GoValue.str p.1, [p.2])) ++ [(GoValue.mapIface m, [])])
      = frags.map fun p => p.2 := by
  induction frags with
  | nil => rfl
  | cons p rest ih =>
    rw [List.map_cons, List.cons_append, positionalArgs, ih]
    rfl

theorem Wheres_append (render : GoValue → String) (c : config)
    (calls calls' : List (GoValue × List GoValue)) :
    c.Wheres render (calls ++ calls') = (c.Wheres render calls).Wheres render calls' := by
  unfold config.Wheres
  rw [List.foldl_append]

theorem mapAssign_ne_nil {α : Type} (m : List (String × α)) (k : String) (v : α) :
    mapAssign m k v ≠ [] := by
  cases m with
  | nil => simp [mapAssign]
  | cons kv rest =>
    obtain ⟨k', w⟩ := kv
    unfold mapAssign
    split_ifs <;> simp

theorem foldl_mapAssign_ne_nil (m : List (String × GoValue)) :
    ∀ acc : List (String × GoValue), (acc ≠ [] ∨ m ≠ []) →
      m.foldl (fun a kv => mapAssign a kv.1 kv.2) acc ≠ [] := by
  induction m with
  | nil => intro acc h; simpa using h
  | cons kv rest ih =>
    intro acc _
    rw [List.foldl_cons]
    exact ih _ (Or.inl (mapAssign_ne_nil acc kv.1 kv.2))

theorem mergeValues_eq (c : config) :
    c.mergeValues
      = c.whereValues
        ++ (if c.namedWhereValues.isEmpty then [] else [GoValue.mapIface c.namedWhereValues]) := by
  unfold config.mergeValues
  cases h : c.namedWhereValues <;> simp

/-- C6: on a builder returned by `New`, after every sequence of `Where` calls, a call with a SQL
fragment appends `" WHERE <fragment>"` to the data SQL when no fragment call came before, and
`" AND <fragment>"` when one did; a call with a named mapping or a `sql.NamedArg` leaves the
data SQL, the count SQL and the has-predicate flag as they are, and so does not count as a
call that came before. -/
theorem C6_where_then_and (render : GoValue → String) (db : DB) (b : Builder) (c0 : config)
    (h : New db (some b) = .ok c0) (calls : List (GoValue × List GoValue)) :
    (∀ (s : String) (args : List GoValue),
        ((c0.Wheres render calls).Where render (GoValue.str s) args).RawSQLString
          = (c0.Wheres render calls).RawSQLString
            ++ (if (calls.any fun call => !isNamedQuery call.1) then " AND " else " WHERE ")
            ++ s) ∧
      (∀ (q : GoValue) (args : List GoValue), isNamedQuery q = true →
        ((c0.Wheres render calls).Where render q args).RawSQLString
            = (c0.Wheres render calls).RawSQLString ∧
          ((c0.Wheres render calls).Where render q args).countRawSQL
            = (c0.Wheres render calls).countRawSQL ∧
          ((c0.Wheres render calls).Where render q args).hasWhere
            = (c0.Wheres render calls).hasWhere) := by
  have h0 : c0.hasWhere = false := by
    have hc : c0 = _ := (Except.ok.inj h).symm
    subst hc
    rfl
  constructor
  · intro s args
    rw [(Where_fragment render _ (GoValue.str s) args rfl).1, Wheres_hasWhere, h0,
      Bool.false_or]
    rfl
  · intro q args hq
    obtain ⟨h1, h2, h3, _⟩ := Where_named render (c0.Wheres render calls) q args hq
    exact ⟨h1, h2, h3⟩

/-- C6, witness: `Where("a = ?", 1)`, then a named mapping, then `Where("b = ?", 2)`. -/
theorem C6_witness :
    (((freshState 12).Wheres (fun _ => "")
        [(GoValue.str "a = ?", [GoValue.int 1]),
         (GoValue.mapIface [("n", GoValue.int 7)], [])]).Where (fun _ => "")
          (GoValue.str "b = ?") [GoValue.int 2]).RawSQLString
      = "SELECT u.* FROM users u WHERE a = ? AND b = ?" :=
  ((C6_where_then_and (fun _ => "") (countingDB 12) usersBuilder (freshState 12) rfl
    [(GoValue.str "a = ?", [GoValue.int 1]),
     (GoValue.mapIface [("n", GoValue.int 7)], [])]).1 "b = ?" [GoValue.int 2]).trans
    (by decide)

/-- C7: on a builder returned by `New`, after every sequence of `Where` calls, `mergeValues`
returns the positional values in the order they were attached, followed by the named mapping
as one trailing element exactly when that mapping is not empty; so `N` fragment calls with one
value each and then one non-empty named mapping give `N + 1` bound values, the mapping last. -/
theorem C7_mergeValues_order (render : GoValue → String) (db : DB) (b : Builder) (c0 : config)
    (h : New db (some b) = .ok c0) (calls : List (GoValue × List GoValue)) :
    (c0.Wheres render calls).mergeValues
        = positionalArgs calls
          ++ (if (c0.Wheres render calls).namedWhereValues.isEmpty then []
              else [GoValue.mapIface (c0.Wheres render calls).namedWhereValues]) ∧
      ∀ (frags : List (String × GoValue)) (m : List (String × GoValue)), m ≠ [] →
        (c0.Wheres render
            ((frags.map fun p => (GoValue.str p.1, [p.2])) ++ [(GoValue.mapIface m, [])])).mergeValues
          = (frags.map fun p => p.2)
            ++ [GoValue.mapIface (c0.Wheres render
                ((frags.map fun p => (GoValue.str p.1, [p.2]))
                  ++ [(GoValue.mapIface m, [])])).namedWhereValues] ∧
        (c0.Wheres render
            ((frags.map fun p => (GoValue.str p.1, [p.2]))
              ++ [(GoValue.mapIface m, [])])).mergeValues.length = frags.length + 1 := by
  have h0 : c0.whereValues = [] ∧ c0.namedWhereValues = [] := by
    have hc : c0 = _ := (Except.ok.inj h).symm
    subst hc
    exact ⟨rfl, rfl⟩
  have hgen : ∀ calls, (c0.Wheres render calls).mergeValues
        = positionalArgs calls
          ++ (if (c0.Wheres render calls).namedWhereValues.isEmpty then []
              else [GoValue.mapIface (c0.Wheres render calls).namedWhereValues]) := by
    intro calls
    rw [mergeValues_eq, Wheres_whereValues, h0.1, List.nil_append]
  refine ⟨hgen calls, ?_⟩
  intro frags m hm
  have hne : (c0.Wheres render
      ((frags.map fun p => (GoValue.str p.1, [p.2]))
        ++ [(GoValue.mapIface m, [])])).namedWhereValues ≠ [] := by
    rw [Wheres_append]
    exact foldl_mapAssign_ne_nil m _ (Or.inr hm)
  have heq := hgen ((frags.map fun p => (GoValue.str p.1, [p.2])) ++ [(GoValue.mapIface m, [])])
  rw [positionalArgs_fragments] at heq
  have hemp : (c0.Wheres render
      ((frags.map fun p => (GoValue.str p.1, [p.2]))
        ++ [(GoValue.mapIface m, [])])).namedWhereValues.isEmpty = false := by
    cases hn : (c0.Wheres render
      ((frags.map fun p => (GoValue.str p.1, [p.2]))
        ++ [(GoValue.mapIface m, [])])).namedWhereValues with
    | nil => exact absurd hn hne
    | cons _ _ => rfl
  rw [hemp] at heq
  refine ⟨heq, ?_⟩
  rw [heq]
  simp

/-- C7, witness: two fragments with one value each, then a mapping with one name. -/
theorem C7_witness :
    ((freshState 12).Wheres (fun _ => "")
        ([("a = ?", GoValue.int 1), ("b = ?", GoValue.int 2)].map
            (fun p => (GoValue.str p.1, [p.2]))
          ++ [(GoValue.mapIface [("n", GoValue.int 7)], [])])).mergeValues.length = 2 + 1 :=
  ((C7_mergeValues_order (fun _ => "") (countingDB 12) usersBuilder (freshState 12) rfl []).2
      [("a = ?", GoValue.int 1), ("b = ?", GoValue.int 2)]
      [("n", GoValue.int 7)] (by simp)).2

/-! ## The method `build` -/

/-- C8: the count SQL of `build` is the count base followed only by `" GROUP BY <group>"` when
group-by is not empty and `" HAVING <having>"` when having is not empty; it receives no
`ORDER BY`, `LIMIT`, `OFFSET` or JSON wrapper, and it is the same string for any two states
that differ only in order-by, limit, page or wrap flag. -/
theorem C8_count_sql (c : config) :
    c.build.2
        = countBase c
          ++ (if c.groupBy ≠ "" then " GROUP BY " ++ c.groupBy else "")
          ++ (if c.having ≠ "" then " HAVING " ++ c.having else "") ∧
      ∀ (orderBy : String) (limit page : Int) (wrapJSON : Bool),
        (config.build
          { c with orderBy := orderBy, limit := limit, page := page, wrapJSON := wrapJSON }).2
          = c.build.2 := by
  constructor
  · unfold config.build countBase
    dsimp only
    split_ifs <;> simp only [String.append_assoc, String.append_empty]
  · intro orderBy limit page wrapJSON
    rfl

theorem build_fst (c : config) :
    c.build.1
      = (if c.wrapJSON then
          wrapJSONText (clauseText c
            (if c.page > 1 then wrapInt (wrapInt (c.page - 1) * c.limit) else 0))
        else clauseText c (if c.page > 1 then wrapInt (wrapInt (c.page - 1) * c.limit) else 0)) := by
  unfold config.build clauseText
  dsimp only
  split_ifs <;> simp only [String.append_assoc, String.append_empty]

/-- C9 (amended): the data SQL of `build` is the accumulated SQL text followed, in this order,
by `" GROUP BY <group>"` if group-by is not empty, `" HAVING <having>"` if having is not empty,
`" ORDER BY <order>"` if order-by is not empty, `" LIMIT <limit>"` exactly when `limit > 0`,
and `" OFFSET <k>"` exactly when `page > 0`, with `k = 0` for page 1 and, for `page > 1`,
`k = (page - 1) * limit` in the arithmetic of `int` (the product itself whenever it is an
`int`); the whole text is wrapped as the body of the JSON query exactly when the flag is set. -/
theorem C9_data_sql (c : config) :
    ∃ k : Int,
      c.build.1 = (if c.wrapJSON then wrapJSONText (clauseText c k) else clauseText c k) ∧
      k = (if c.page > 1 then wrapInt ((c.page - 1) * c.limit) else 0) ∧
      (IsInt64 ((c.page - 1) * c.limit) →
        k = (if c.page > 1 then (c.page - 1) * c.limit else 0)) := by
  refine ⟨_, build_fst c, ?_, ?_⟩
  · rw [wrapInt_mul_left]
  · intro h
    rw [wrapInt_mul_left, wrapInt_of_isInt64 h]

/-- C9, witness: the state of the scenario (limit 5, page 2) with the wrapper off. -/
theorem C9_witness :
    IsInt64 (((sampleState 12 2 5).page - 1) * (sampleState 12 2 5).limit) ∧
      (sampleState 12 2 5).build.1 = "SELECT u.* FROM users u LIMIT 5 OFFSET 5" := by
  obtain ⟨k, hb, _, hk⟩ := C9_data_sql (sampleState 12 2 5)
  have hk' : k = 5 := hk (by decide)
  subst hk'
  exact ⟨by decide, hb.trans (by decide)⟩

/-- C9, as stated, fails: for page `2 ^ 62 + 1` and a limit of 4 the clause is `OFFSET 0`,
while `(page - 1) * limit` is `2 ^ 64`. -/
theorem C9_counterexample :
    1 < (sampleState 12 (2 ^ 62 + 1) 4).page ∧
      IsInt64 (sampleState 12 (2 ^ 62 + 1) 4).page ∧
      (sampleState 12 (2 ^ 62 + 1) 4).build.1 = "SELECT u.* FROM users u LIMIT 4 OFFSET 0" ∧
      (sampleState 12 (2 ^ 62 + 1) 4).build.1
        ≠ clauseText (sampleState 12 (2 ^ 62 + 1) 4)
            (((sampleState 12 (2 ^ 62 + 1) 4).page - 1) * (sampleState 12 (2 ^ 62 + 1) 4).limit) := by
  have hb : (sampleState 12 (2 ^ 62 + 1) 4).build.1 = "SELECT u.* FROM users u LIMIT 4 OFFSET 0" := by
    rw [build_fst]
    decide
  refine ⟨by decide, by decide, hb, ?_⟩
  rw [hb]
  decide

/-! ## The method `copyResult` -/

/-- C10: for every pointer destination and every handler result that is an empty sequence (a
slice or an array without elements), or a reference to one, whose type after boxing differs
from the type of the destination, as it does whenever the destination expects a single record,
`copyResult` returns `sql.ErrNoRows` and leaves the destination as it was. -/
theorem C10_empty_is_no_rows (c : config) (td : GoType) (tgt : Option GoValue) (te : GoType)
    (result : GoValue)
    (hres : result = GoValue.slice te [] ∨ result = GoValue.array te [] ∨
      result = GoValue.ptr (.slice te) (some (GoValue.slice te [])) ∨
      result = GoValue.ptr (.array 0 te) (some (GoValue.array te [])))
    (hty : boxedType result ≠ some (.ptr td)) :
    c.copyResult (reflectValueOf (GoValue.ptr td tgt)) result
      = .ok (some GoError.ErrNoRows, reflectValueOf (GoValue.ptr td tgt)) := by
  rcases hres with rfl | rfl | rfl | rfl
  all_goals
    simp only [boxedType, GoValue.typeOf, ne_eq, Option.some.injEq, GoType.ptr.injEq,
      List.length_nil] at hty
    simp [config.copyResult, reflectValueOf, GoValue.typeOf, RValue.Kind, GoType.kind,
      RValue.Type, RValue.Elem, RValue.Len, bind, Except.bind, pure, Except.pure, hty]

/-- C10, witness: a destination `*User` and a handler result that is an empty `[]*User`. -/
theorem C10_witness :
    (freshState 12).copyResult (reflectValueOf userDest) (GoValue.slice (.ptr (.struct "User")) [])
      = .ok (some GoError.ErrNoRows, reflectValueOf userDest) :=
  C10_empty_is_no_rows (freshState 12) (.struct "User") (some (GoValue.struct "User" []))
    (.ptr (.struct "User")) (GoValue.slice (.ptr (.struct "User")) []) (Or.inl rfl) (by decide)

theorem copyResult_direct (c : config) (td : GoType) (old v : GoValue) (result : GoValue)
    (hres : result = GoValue.ptr td (some v) ∨
      (result = v ∧ v.typeOf = some td ∧ td.kind ≠ Kind.Ptr)) :
    c.copyResult (reflectValueOf (GoValue.ptr td (some old))) result
      = .ok (none, reflectValueOf (GoValue.ptr td (some v))) := by
  rcases hres with rfl | ⟨rfl, hv, hk⟩
  · simp [config.copyResult, reflectValueOf, GoValue.typeOf, RValue.Kind, GoType.kind,
      RValue.Type, RValue.Elem, setElem, assignable, bind, Except.bind, pure, Except.pure]
  · have hr : reflectValueOf result = RValue.val td result := by
      unfold reflectValueOf
      rw [hv]
    have hd : reflectValueOf (GoValue.ptr td (some old))
        = RValue.val (.ptr td) (GoValue.ptr td (some old)) := rfl
    have hd' : reflectValueOf (GoValue.ptr td (some result))
        = RValue.val (.ptr td) (GoValue.ptr td (some result)) := rfl
    rw [hd, hd']
    unfold config.copyResult
    rw [hr]
    cases td <;>
      simp [RValue.Kind, GoType.kind, RValue.Type, RValue.Elem, setElem, assignable, bind,
        Except.bind, pure, Except.pure] at hk ⊢

theorem copyResult_mismatch (c : config) (t td : GoType) (tgt : Option GoValue)
    (result : GoValue) (hne : t ≠ td) (hs : t.kind ≠ Kind.Slice) (ha : t.kind ≠ Kind.Array)
    (hres : (result.typeOf = some t ∧ t.kind ≠ Kind.Ptr) ∨ ∃ x, result = GoValue.ptr t x) :
    c.copyResult (reflectValueOf (GoValue.ptr td tgt)) result
      = .ok (some (GoError.errorf ((GoType.ptr t).String ++ " is not " ++ (GoType.ptr td).String)),
          reflectValueOf (GoValue.ptr td tgt)) := by
  have hd : reflectValueOf (GoValue.ptr td tgt)
      = RValue.val (.ptr td) (GoValue.ptr td tgt) := rfl
  rw [hd]
  rcases hres with ⟨hv, hk⟩ | ⟨x, rfl⟩
  · have hr : reflectValueOf result = RValue.val t result := by
      unfold reflectValueOf
      rw [hv]
    unfold config.copyResult
    rw [hr]
    cases t <;>
      simp [RValue.Kind, GoType.kind, RValue.Type, RValue.Elem, bind, Except.bind, pure,
        Except.pure, hne] at hk hs ha ⊢
  · have hr : reflectValueOf (GoValue.ptr t x) = RValue.val (.ptr t) (GoValue.ptr t x) := rfl
    unfold config.copyResult
    rw [hr]
    cases x <;> cases t <;>
      simp [RValue.Kind, GoType.kind, RValue.Type, RValue.Elem, bind, Except.bind, pure,
        Except.pure, hne] at hs ha ⊢

theorem slice_ptr_ne (td : GoType) : GoType.slice (GoType.ptr td) ≠ td := by
  intro h
  have := congrArg sizeOf h
  simp at this
  omega

/-- What `copyResult` does on a non-empty sequence of references, or a reference to one: the
destination `*T` receives the record behind the first `*T`. -/
theorem copyResult_first_pointer (c : config) (td : GoType) (old v : GoValue)
    (rest : List GoValue) (result : GoValue)
    (hres : result = GoValue.slice (.ptr td) (GoValue.ptr td (some v) :: rest) ∨
      result = GoValue.ptr (.slice (.ptr td))
        (some (GoValue.slice (.ptr td) (GoValue.ptr td (some v) :: rest)))) :
    c.copyResult (reflectValueOf (GoValue.ptr td (some old))) result
      = .ok (none, reflectValueOf (GoValue.ptr td (some v))) := by
  have h := slice_ptr_ne td
  rcases hres with rfl | rfl <;>
    simp [config.copyResult, reflectValueOf, GoValue.typeOf, RValue.Kind, GoType.kind,
      RValue.Type, RValue.Elem, RValue.Len, RValue.Index, setElem, assignable, bind,
      Except.bind, pure, Except.pure, h]

theorem fetch_of_handler (c : config) (dest : GoValue) (f : List Handler) (fn : Handler)
    (hdest : (reflectValueOf dest).Kind = Kind.Ptr) (hfn : c.GetPagingFunc f = some fn) :
    c.fetch dest f
      = (match fn c.db { sql := c.build.1, vars := c.mergeValues } with
        | (_, some err) =>
          .ok { err := some err, dest := reflectValueOf dest, cfg := c,
                issued := some { sql := c.build.1, vars := c.mergeValues } }
        | (result, none) =>
          match c.copyResult (reflectValueOf dest) result with
          | .error e => .error e
          | .ok (err, rOut) =>
            .ok { err := err, dest := rOut, cfg := c,
                  issued := some { sql := c.build.1, vars := c.mergeValues } }) := by
  unfold config.fetch
  simp only [hdest, hfn, ne_eq, not_true_eq_false, if_false]

theorem fetch_of_non_pointer (c : config) (dest : GoValue) (f : List Handler)
    (hdest : (reflectValueOf dest).Kind ≠ Kind.Ptr) :
    c.fetch dest f
      = .ok { err := some (GoError.errorf ("must be a pointer of " ++ sprintT dest)),
              dest := reflectValueOf dest, cfg := c, issued := none } := by
  unfold config.fetch
  simp only [hdest, ne_eq, not_false_eq_true, if_true]

/-- C11 (what the code does): on a non-empty `[]User`, or a reference to one, and a destination
`*User`, `copyResult` does not return: `Index(0).Elem()` is called on a struct and panics, and
`FirstFunc` over a handler that returns such a sequence panics with it. -/
theorem C11_value_elements_panic :
    (freshState 12).copyResult (reflectValueOf userDest)
        (GoValue.slice (.struct "User") [sampleUser])
      = .error (GoPanic.reflectPanic "call of reflect.Value.Elem on a Value that is no pointer") ∧
    (freshState 12).copyResult (reflectValueOf userDest)
        (GoValue.ptr (.slice (.struct "User"))
          (some (GoValue.slice (.struct "User") [sampleUser])))
      = .error (GoPanic.reflectPanic "call of reflect.Value.Elem on a Value that is no pointer") ∧
    valueUsersState.FirstFunc userDest []
      = .error (GoPanic.reflectPanic "call of reflect.Value.Elem on a Value that is no pointer") := by
  refine ⟨rfl, rfl, ?_⟩
  have h := fetch_of_handler { valueUsersState with limit := 1 } userDest [] valueUsersHandler
    rfl rfl
  exact h

/-- On a nil destination, and on a nil result pointer of the destination's type, the store
`rOut.Elem().Set(rResult.Elem())` of `copyResult` panics: the types are equal, so no other
branch is taken, and one side of the `Set` is the zero Value. -/
theorem copyResult_nil_panics (c : config) (td : GoType) (tgt x : Option GoValue)
    (hnil : tgt = none ∨ x = none) :
    c.copyResult (reflectValueOf (GoValue.ptr td tgt)) (GoValue.ptr td x)
      = .error (GoPanic.reflectPanic "call of reflect.Value.Set on zero Value") := by
  rcases hnil with rfl | rfl
  · cases x <;>
      simp [config.copyResult, reflectValueOf, GoValue.typeOf, RValue.Kind, GoType.kind,
        RValue.Type, RValue.Elem, setElem, assignable, bind, Except.bind, pure, Except.pure]
  · cases tgt <;>
      simp [config.copyResult, reflectValueOf, GoValue.typeOf, RValue.Kind, GoType.kind,
        RValue.Type, RValue.Elem, setElem, assignable, bind, Except.bind, pure, Except.pure]

/-- C12 (amended): for every non-nil pointer destination (a reference to a slot of type `T`)
and every handler result whose type, after a non-pointer result has been boxed behind a
reference, is `*T` and that is not a nil pointer (a non-nil reference to a value of type `T`,
or a non-pointer value of type `T`), `copyResult` stores that value in the slot and returns
nil, whatever the value is, a sequence, empty or not, included; so `FindFunc` over a handler
that returns such a result returns nil with the whole value in the destination, never a
no-rows error.  When the destination is a nil `*T`, or the result is a nil `*T`, `copyResult`
does not return: the store panics. -/
theorem C12_same_type_copies (c : config) (td : GoType) (old v : GoValue) (result : GoValue)
    (hres : result = GoValue.ptr td (some v) ∨
      (result = v ∧ v.typeOf = some td ∧ td.kind ≠ Kind.Ptr)) :
    c.copyResult (reflectValueOf (GoValue.ptr td (some old))) result
        = .ok (none, reflectValueOf (GoValue.ptr td (some v))) ∧
      (∀ (f : List Handler) (fn : Handler), c.GetPagingFunc f = some fn →
        fn c.db { sql := c.build.1, vars := c.mergeValues } = (result, none) →
        c.FindFunc (GoValue.ptr td (some old)) f
          = .ok { err := none, dest := reflectValueOf (GoValue.ptr td (some v)), cfg := c,
                  issued := some { sql := c.build.1, vars := c.mergeValues } }) ∧
      ∀ (tgt x : Option GoValue), tgt = none ∨ x = none →
        c.copyResult (reflectValueOf (GoValue.ptr td tgt)) (GoValue.ptr td x)
          = .error (GoPanic.reflectPanic "call of reflect.Value.Set on zero Value") := by
  have hcopy := copyResult_direct c td old v result hres
  refine ⟨hcopy, ?_, fun tgt x hnil => copyResult_nil_panics c td tgt x hnil⟩
  intro f fn hfn hres'
  have h := fetch_of_handler c (GoValue.ptr td (some old)) f fn rfl hfn
  rw [hres'] at h
  simp only [hcopy] at h
  exact h

/-- C12 (amended), witness: the destination `*[]*User` of `TestFindFunc` and a handler that
returns a reference to a `[]*User` of one record. -/
theorem C12_witness :
    oneUserState.FindFunc userListDest []
      = .ok { err := none
              dest := reflectValueOf (GoValue.ptr userListType
                (some (GoValue.slice (.ptr (.struct "User")) [sampleUserPtr])))
              cfg := oneUserState
              issued := some { sql := oneUserState.build.1, vars := oneUserState.mergeValues } } :=
  (C12_same_type_copies oneUserState userListType (GoValue.slice (.ptr (.struct "User")) [])
    (GoValue.slice (.ptr (.struct "User")) [sampleUserPtr])
    (GoValue.ptr userListType (some (GoValue.slice (.ptr (.struct "User")) [sampleUserPtr])))
    (Or.inl rfl)).2.1 [] oneUserHandler rfl rfl

/-- C12, as stated, fails: the destination `*[]*User` of `TestFindFunc` and the nil result
`(*[]*User)(nil)` have the same type, and `copyResult` does not return nil but panics in
`Set`; so it does for a nil destination `(*[]*User)(nil)` and a reference to a `[]*User` of
one record; and `FindFunc` panics with it in both cases. -/
theorem C12_counterexample :
    (freshState 12).copyResult (reflectValueOf userListDest) (GoValue.ptr userListType none)
        = .error (GoPanic.reflectPanic "call of reflect.Value.Set on zero Value") ∧
      (freshState 12).copyResult (reflectValueOf (GoValue.ptr userListType none))
          (GoValue.ptr userListType (some (GoValue.slice (.ptr (.struct "User")) [sampleUserPtr])))
        = .error (GoPanic.reflectPanic "call of reflect.Value.Set on zero Value") ∧
      nilUsersState.FindFunc userListDest []
        = .error (GoPanic.reflectPanic "call of reflect.Value.Set on zero Value") ∧
      oneUserState.FindFunc (GoValue.ptr userListType none) []
        = .error (GoPanic.reflectPanic "call of reflect.Value.Set on zero Value") := by
  refine ⟨rfl, rfl, ?_, ?_⟩
  · exact fetch_of_handler nilUsersState userListDest [] nilUsersHandler rfl rfl
  · exact fetch_of_handler oneUserState (GoValue.ptr userListType none) [] oneUserHandler rfl rfl

/-- C13: for every pointer destination `*T` and every handler result that is a single
non-sequence element of a type `S` other than `T`, or a reference to one, `copyResult` returns
the error whose message is `*S is not *T`, the two types by name, and leaves the destination as
it was. -/
theorem C13_type_mismatch (c : config) (t td : GoType) (tgt : Option GoValue)
    (result : GoValue) (hne : t ≠ td) (hs : t.kind ≠ Kind.Slice) (ha : t.kind ≠ Kind.Array)
    (hres : (result.typeOf = some t ∧ t.kind ≠ Kind.Ptr) ∨ ∃ x, result = GoValue.ptr t x) :
    c.copyResult (reflectValueOf (GoValue.ptr td tgt)) result
      = .ok (some (GoError.errorf (("*" ++ t.String) ++ " is not " ++ ("*" ++ td.String))),
          reflectValueOf (GoValue.ptr td tgt)) :=
  copyResult_mismatch c t td tgt result hne hs ha hres

/-- C13, witness: an `int` for a destination `*User`. -/
theorem C13_witness :
    (freshState 12).copyResult (reflectValueOf userDest) (GoValue.int 3)
      = .ok (some (GoError.errorf "*int is not *User"), reflectValueOf userDest) :=
  C13_type_mismatch (freshState 12) (.basic "int") (.struct "User")
    (some (GoValue.struct "User" [])) (GoValue.int 3) (by decide) (by decide) (by decide)
    (Or.inl ⟨rfl, by decide⟩)

/-- C14: for every destination argument that is not a pointer, the nil interface included,
`FindFunc` and `FirstFunc` return the error `must be a pointer of <type>` and hand no statement
to a handler, whether or not a handler is configured: the fatal error of a missing handler is
not reached. -/
theorem C14_non_pointer_destination (c : config) (dest : GoValue) (f : List Handler)
    (hdest : (reflectValueOf dest).Kind ≠ Kind.Ptr) :
    c.FindFunc dest f
        = .ok { err := some (GoError.errorf ("must be a pointer of " ++ sprintT dest)),
                dest := reflectValueOf dest, cfg := c, issued := none } ∧
      c.FirstFunc dest f
        = .ok { err := some (GoError.errorf ("must be a pointer of " ++ sprintT dest)),
                dest := reflectValueOf dest, cfg := { c with limit := 1 }, issued := none } :=
  ⟨fetch_of_non_pointer c dest f hdest,
   fetch_of_non_pointer { c with limit := 1 } dest f hdest⟩

/-- C14, witness: a `User` value as destination, on a builder without any handler. -/
theorem C14_witness :
    bareState.FindFunc sampleUser []
        = .ok { err := some (GoError.errorf "must be a pointer of User"),
                dest := reflectValueOf sampleUser, cfg := bareState, issued := none } ∧
      bareState.FirstFunc sampleUser []
        = .ok { err := some (GoError.errorf "must be a pointer of User"),
                dest := reflectValueOf sampleUser, cfg := { bareState with limit := 1 },
                issued := none } :=
  C14_non_pointer_destination bareState sampleUser [] (by decide)

/-! ## Errors and bound values of the fetch paths -/

theorem Scan_err (c : config) (dest : GoValue) :
    (c.Scan dest).err
      = (if (c.db.scan { sql := c.build.1, vars := c.mergeValues } dest).Error ≠ none ∧
            (c.db.scan { sql := c.build.1, vars := c.mergeValues } dest).RowsAffected = 0
          then some GoError.ErrNoRows
          else (c.db.scan { sql := c.build.1, vars := c.mergeValues } dest).Error) := by
  unfold config.Scan
  dsimp only
  split_ifs <;> simp_all

theorem Find_err (c : config) (dest : GoValue) :
    (c.Find dest).err
      = (if (c.db.find { sql := c.build.1, vars := c.mergeValues } dest).Error ≠ none ∧
            (c.db.find { sql := c.build.1, vars := c.mergeValues } dest).RowsAffected = 0
          then some GoError.ErrNoRows
          else (c.db.find { sql := c.build.1, vars := c.mergeValues } dest).Error) := by
  unfold config.Find
  dsimp only
  split_ifs <;> simp_all

/-- C15 (amended): every error `e` that the handler returns to `FindFunc` or `FirstFunc` is
returned as it is.  `Scan` and `Find` return the error `e` of the backend as it is when rows
were affected, and `sql.ErrNoRows` in its place when no row was affected.  `Scan` and `Find`
return nil exactly when the backend reported no error. -/
theorem C15_errors_reach_caller (c : config) (dest : GoValue) :
    (∀ (f : List Handler) (fn : Handler) (res : GoValue) (e : GoError),
        (reflectValueOf dest).Kind = Kind.Ptr → c.GetPagingFunc f = some fn →
        fn c.db { sql := c.build.1, vars := c.mergeValues } = (res, some e) →
        ∃ r, c.FindFunc dest f = .ok r ∧ r.err = some e) ∧
      (∀ (f : List Handler) (fn : Handler) (res : GoValue) (e : GoError),
        (reflectValueOf dest).Kind = Kind.Ptr → c.GetPagingFunc f = some fn →
        fn c.db { sql := (config.build { c with limit := 1 }).1, vars := c.mergeValues }
          = (res, some e) →
        ∃ r, c.FirstFunc dest f = .ok r ∧ r.err = some e) ∧
      (∀ e : GoError,
        (c.db.scan { sql := c.build.1, vars := c.mergeValues } dest).Error = some e →
        (c.Scan dest).err
          = (if (c.db.scan { sql := c.build.1, vars := c.mergeValues } dest).RowsAffected = 0
              then some GoError.ErrNoRows else some e)) ∧
      (∀ e : GoError,
        (c.db.find { sql := c.build.1, vars := c.mergeValues } dest).Error = some e →
        (c.Find dest).err
          = (if (c.db.find { sql := c.build.1, vars := c.mergeValues } dest).RowsAffected = 0
              then some GoError.ErrNoRows else some e)) ∧
      ((c.Scan dest).err = none
        ↔ (c.db.scan { sql := c.build.1, vars := c.mergeValues } dest).Error = none) ∧
      ((c.Find dest).err = none
        ↔ (c.db.find { sql := c.build.1, vars := c.mergeValues } dest).Error = none) := by
  refine ⟨?_, ?_, ?_, ?_, ?_, ?_⟩
  · intro f fn res e hdest hfn hres
    have h := fetch_of_handler c dest f fn hdest hfn
    rw [hres] at h
    exact ⟨_, h, rfl⟩
  · intro f fn res e hdest hfn hres
    have h := fetch_of_handler { c with limit := 1 } dest f fn hdest hfn
    have hres' : fn ({ c with limit := 1 } : config).db
        { sql := (config.build { c with limit := 1 }).1,
          vars := config.mergeValues { c with limit := 1 } } = (res, some e) := hres
    rw [hres'] at h
    exact ⟨_, h, rfl⟩
  · intro e he
    rw [Scan_err, he]
    split_ifs <;> simp_all
  · intro e he
    rw [Find_err, he]
    split_ifs <;> simp_all
  · rw [Scan_err]
    split_ifs with h
    · simp [h.1]
    · rfl
  · rw [Find_err]
    split_ifs with h
    · simp [h.1]
    · rfl

/-- C15, witness: a handler that fails with its own error, which `FindFunc` returns. -/
theorem C15_witness :
    ∃ r, failingHandlerState.FindFunc userDest [] = .ok r ∧ r.err = some (GoError.other 9) :=
  (C15_errors_reach_caller failingHandlerState userDest).1 [] failingHandler GoValue.nil
    (GoError.other 9) rfl rfl rfl

/-- C15, as stated, fails: a backend error that comes with no affected row does not reach the
caller of `Scan` and `Find`, who gets `sql.ErrNoRows` in its place. -/
theorem C15_counterexample :
    (failingState.db.scan { sql := failingState.build.1, vars := failingState.mergeValues }
        userDest).Error = some (GoError.other 7) ∧
      (failingState.Scan userDest).err = some GoError.ErrNoRows ∧
      (failingState.Scan userDest).err ≠ some (GoError.other 7) ∧
      (failingState.Find userDest).err = some GoError.ErrNoRows ∧
      (failingState.Find userDest).err ≠ some (GoError.other 7) := by
  refine ⟨rfl, rfl, ?_, rfl, ?_⟩
  · have h : (failingState.Scan userDest).err = some GoError.ErrNoRows := rfl
    rw [h]
    decide
  · have h : (failingState.Find userDest).err = some GoError.ErrNoRows := rfl
    rw [h]
    decide

theorem slice_singleton_ne (t : GoType) (vs : List GoValue) : [GoValue.slice t vs] ≠ vs := by
  intro h
  have := congrArg sizeOf h
  simp at this
  omega

theorem normPage_mergeValues (c : config) : c.normPage.mergeValues = c.mergeValues := by
  unfold config.normPage
  split_ifs <;> rfl

/-- C17 (what the code does): `Scan`, `Find` and `ExplainSQL` bind the list of `mergeValues`,
and so do `PagingFunc`, `FindFunc` and `FirstFunc` whenever they hand a statement to the
handler; `ScanRow` binds one value, the list itself as a `[]interface{}`, which is never the
list that `Scan` binds for the same state. -/
theorem C17_scanRow_binds_the_slice (c : config) (dest : GoValue) :
    (c.Scan dest).issued.vars = c.mergeValues ∧
      (c.Find dest).issued.vars = c.mergeValues ∧
      c.ExplainSQL.2.vars = c.mergeValues ∧
      (∀ (f : List Handler) (r : PagingResult), c.PagingFunc f = .ok r →
        r.dataQuery.vars = c.mergeValues) ∧
      (∀ (f : List Handler) (r : FetchResult) (q : RawQuery), c.FindFunc dest f = .ok r →
        r.issued = some q → q.vars = c.mergeValues) ∧
      (∀ (f : List Handler) (r : FetchResult) (q : RawQuery), c.FirstFunc dest f = .ok r →
        r.issued = some q → q.vars = c.mergeValues) ∧
      (c.ScanRow dest).issued.vars = [GoValue.slice GoType.iface c.mergeValues] ∧
      (c.ScanRow dest).issued.vars ≠ (c.Scan dest).issued.vars := by
  have hscan : (c.Scan dest).issued.vars = c.mergeValues := by
    unfold config.Scan
    dsimp only
    split_ifs <;> rfl
  have hfind : (c.Find dest).issued.vars = c.mergeValues := by
    unfold config.Find
    dsimp only
    split_ifs <;> rfl
  have hrow : (c.ScanRow dest).issued.vars = [GoValue.slice GoType.iface c.mergeValues] := by
    unfold config.ScanRow
    dsimp only
    split <;> rfl
  have hfetch : ∀ (c' : config) (f : List Handler) (r : FetchResult) (q : RawQuery),
      c'.fetch dest f = .ok r → r.issued = some q → q.vars = c'.mergeValues := by
    intro c' f r q hr hq
    unfold config.fetch at hr
    dsimp only at hr
    split_ifs at hr with hk
    · cases hr
      simp at hq
    · split at hr
      · simp at hr
      · split at hr
        · cases hr
          simp at hq
          rw [← hq]
        · split at hr
          · simp at hr
          · cases hr
            simp at hq
            rw [← hq]
  refine ⟨hscan, hfind, rfl, ?_, ?_, ?_, hrow, ?_⟩
  · intro f r hr
    cases hfn : c.GetPagingFunc f with
    | none =>
      rw [PagingFunc_of_no_handler c f hfn] at hr
      simp at hr
    | some fn =>
      rw [PagingFunc_of_handler c f fn hfn] at hr
      cases hr
      rw [pagingBody_dataQuery]
      exact normPage_mergeValues c
  · intro f r q hr hq
    exact hfetch c f r q hr hq
  · intro f r q hr hq
    exact hfetch { c with limit := 1 } f r q hr hq
  · rw [hrow, hscan]
    exact slice_singleton_ne _ _

/-- The bound values of `Scan` and of `ScanRow` after `Where("a = ?", 1).Where("b = ?", 2)`. -/
theorem scanRow_twoValueState :
    (twoValueState.Scan userDest).issued.vars = [GoValue.int 1, GoValue.int 2] ∧
      (twoValueState.ScanRow userDest).issued.vars
        = [GoValue.slice GoType.iface [GoValue.int 1, GoValue.int 2]] :=
  ⟨rfl, rfl⟩

/-! ## The count base -/

theorem append_ne_empty {x : String} (y : String) (h : x ≠ "") : x ++ y ≠ "" := by
  intro h'
  apply h
  have h1 : (x ++ y).length = 0 := by rw [h']; rfl
  rw [String.length_append] at h1
  have h2 : x.data.length = 0 := by
    have : x.length = 0 := by omega
    exact this
  exact String.ext (List.length_eq_zero.mp h2)

theorem Where_countRawSQL (render : GoValue → String) (c : config) (q : GoValue)
    (args : List GoValue) (hq : isNamedQuery q = false) :
    (c.Where render q args).countRawSQL
      = (if c.countRawSQL = "" then ""
          else c.countRawSQL ++ (if c.hasWhere then " AND " else " WHERE ") ++ sprintV render q) := by
  cases q <;> simp [isNamedQuery] at hq <;>
    (unfold config.Where
     dsimp only
     cases hw : c.hasWhere <;> cases args <;> simp [hw] <;> split_ifs <;> simp_all)

theorem Wheres_texts (render : GoValue → String) (calls : List (GoValue × List GoValue)) :
    ∀ c : config,
      (c.Wheres render calls).RawSQLString
          = c.RawSQLString ++ whereSuffix render c.hasWhere calls ∧
        (c.Wheres render calls).countRawSQL
          = (if c.countRawSQL = "" then ""
              else c.countRawSQL ++ whereSuffix render c.hasWhere calls) := by
  induction calls with
  | nil =>
    intro c
    by_cases hc : c.countRawSQL = "" <;> simp [config.Wheres, whereSuffix, hc]
  | cons call rest ih =>
    intro c
    rw [Wheres_cons]
    obtain ⟨ih1, ih2⟩ := ih (c.Where render call.1 call.2)
    rw [ih1, ih2]
    cases hq : isNamedQuery call.1
    · obtain ⟨h1, h2, _, _⟩ := Where_fragment render c call.1 call.2 hq
      have h3 := Where_countRawSQL render c call.1 call.2 hq
      rw [h1, h2, h3]
      simp only [whereSuffix, hq, Bool.false_eq_true, if_false]
      constructor
      · simp only [String.append_assoc]
      · by_cases hc : c.countRawSQL = ""
        · simp [hc]
        · have hne : c.countRawSQL ++ (if c.hasWhere then " AND " else " WHERE ")
              ++ sprintV render call.1 ≠ "" := by
            rw [String.append_assoc]
            exact append_ne_empty _ hc
          rw [if_neg hc, if_neg hne, if_neg hc]
          simp only [String.append_assoc]
    · obtain ⟨h1, h2, h3, _⟩ := Where_named render c call.1 call.2 hq
      rw [h1, h2, h3]
      refine ⟨?_, ?_⟩ <;> simp [whereSuffix, hq]

theorem build_snd (c : config) :
    c.build.2
      = countBase c
        ++ (if c.groupBy ≠ "" then " GROUP BY " ++ c.groupBy else "")
        ++ (if c.having ≠ "" then " HAVING " ++ c.having else "") := by
  unfold config.build countBase
  dsimp only
  split_ifs <;> simp only [String.append_assoc, String.append_empty]

/-- C18: on the builder that `New` makes from a query spec, after every sequence of `Where`
calls, the data SQL is the base SQL of the spec followed by the predicate suffix of the calls,
and the count base that `build` starts the count SQL from is the count SQL of the spec followed
by the very same suffix when the spec gave a count SQL, and the accumulated data SQL itself
when it gave none. -/
theorem C18_count_base_suffix (render : GoValue → String) (db : DB) (b : Builder)
    (c0 : config) (h : New db (some b) = .ok c0) (calls : List (GoValue × List GoValue)) :
    (c0.Wheres render calls).RawSQLString = b.rawSQL ++ whereSuffix render false calls ∧
      countBase (c0.Wheres render calls)
        = (if b.countRawSQL ≠ "" then b.countRawSQL ++ whereSuffix render false calls
            else (c0.Wheres render calls).RawSQLString) ∧
      (c0.Wheres render calls).build.2
        = countBase (c0.Wheres render calls)
          ++ (if (c0.Wheres render calls).groupBy ≠ "" then
                " GROUP BY " ++ (c0.Wheres render calls).groupBy else "")
          ++ (if (c0.Wheres render calls).having ≠ "" then
                " HAVING " ++ (c0.Wheres render calls).having else "") := by
  have h0 : c0.RawSQLString = b.rawSQL ∧ c0.countRawSQL = b.countRawSQL ∧ c0.hasWhere = false := by
    have hc : c0 = _ := (Except.ok.inj h).symm
    subst hc
    exact ⟨rfl, rfl, rfl⟩
  obtain ⟨h1, h2⟩ := Wheres_texts render calls c0
  rw [h0.1, h0.2.2] at h1
  rw [h0.2.1, h0.2.2] at h2
  refine ⟨h1, ?_, build_snd _⟩
  unfold countBase
  rw [h2]
  by_cases hb : b.countRawSQL = ""
  · simp [hb]
  · have hne : b.countRawSQL ++ whereSuffix render false calls ≠ "" := append_ne_empty _ hb
    simp [hb, hne]

/-- C18, witness: a spec with the count SQL `SELECT 1 FROM users u` and two fragments. -/
theorem C18_witness :
    countBase (((New (countingDB 12)
        (some (NewBuilder "SELECT u.* FROM users u" ["SELECT 1 FROM users u"]))).toOption.get
          rfl).Wheres (fun _ => "")
        [(GoValue.str "a = ?", [GoValue.int 1]), (GoValue.str "b = ?", [GoValue.int 2])])
      = "SELECT 1 FROM users u WHERE a = ? AND b = ?" :=
  ((C18_count_base_suffix (fun _ => "") (countingDB 12)
    (NewBuilder "SELECT u.* FROM users u" ["SELECT 1 FROM users u"]) _ rfl
    [(GoValue.str "a = ?", [GoValue.int 1]), (GoValue.str "b = ?", [GoValue.int 2])]).2.1).trans
    (by decide)

/-! ## `FirstFunc` and the offset of `PagingFunc` -/

/-- C19: `FirstFunc` fetches with a limit of 1.  With a pointer destination and a handler
resolved, the handler is called on the statement whose text is the data SQL that `build` gives
for the same state with `limit = 1` and whose values are those of `mergeValues`, and the call
ends as that call of the handler and `copyResult` end; that text has the clause `" LIMIT 1"`;
and the call is the same whatever limit was set before it. -/
theorem C19_first_func_limit_one (c : config) (dest : GoValue) (f : List Handler)
    (fn : Handler) (hdest : (reflectValueOf dest).Kind = Kind.Ptr)
    (hfn : c.GetPagingFunc f = some fn) :
    c.FirstFunc dest f
        = (match fn c.db { sql := (config.build { c with limit := 1 }).1,
                           vars := c.mergeValues } with
          | (_, some err) =>
            .ok { err := some err, dest := reflectValueOf dest, cfg := { c with limit := 1 },
                  issued := some { sql := (config.build { c with limit := 1 }).1,
                                   vars := c.mergeValues } }
          | (result, none) =>
            match c.copyResult (reflectValueOf dest) result with
            | .error e => .error e
            | .ok (err, rOut) =>
              .ok { err := err, dest := rOut, cfg := { c with limit := 1 },
                    issued := some { sql := (config.build { c with limit := 1 }).1,
                                     vars := c.mergeValues } }) ∧
      (∃ k : Int,
        (config.build { c with limit := 1 }).1
          = (if c.wrapJSON then
              wrapJSONText (c.RawSQLString
                ++ (if c.groupBy ≠ "" then " GROUP BY " ++ c.groupBy else "")
                ++ (if c.having ≠ "" then " HAVING " ++ c.having else "")
                ++ (if c.orderBy ≠ "" then " ORDER BY " ++ c.orderBy else "")
                ++ " LIMIT 1"
                ++ (if c.page > 0 then " OFFSET " ++ toString k else ""))
            else
              c.RawSQLString
                ++ (if c.groupBy ≠ "" then " GROUP BY " ++ c.groupBy else "")
                ++ (if c.having ≠ "" then " HAVING " ++ c.having else "")
                ++ (if c.orderBy ≠ "" then " ORDER BY " ++ c.orderBy else "")
                ++ " LIMIT 1"
                ++ (if c.page > 0 then " OFFSET " ++ toString k else ""))) ∧
      ∀ limit : Int, (c.Limit limit).FirstFunc dest f = c.FirstFunc dest f := by
  refine ⟨?_, ?_, ?_⟩
  · exact fetch_of_handler { c with limit := 1 } dest f fn hdest hfn
  · refine ⟨if c.page > 1 then wrapInt (wrapInt (c.page - 1) * 1) else 0, ?_⟩
    rw [build_fst]
    rfl
  · intro limit
    rfl

/-- C19, witness: the call of `TestFirstFunc`, `Page(1).Limit(5)` and one predicate. -/
theorem C19_witness :
    firstFuncState.FirstFunc userDest []
      = .ok { err := none
              dest := reflectValueOf sampleUserPtr
              cfg := { firstFuncState with limit := 1 }
              issued := some { sql := "SELECT u.* FROM users u WHERE u.id = ? LIMIT 1 OFFSET 0"
                               vars := [GoValue.int 1] } } :=
  ((C19_first_func_limit_one firstFuncState userDest [] oneUserHandler rfl rfl).1).trans
    (by
      have hsql : (config.build { firstFuncState with limit := 1 }).1
          = "SELECT u.* FROM users u WHERE u.id = ? LIMIT 1 OFFSET 0" := by decide
      rw [hsql]
      rfl)

theorem clauseText_eq (c : config) (k : Int) :
    clauseText c k
      = clausesBeforeOffset c ++ (if c.page > 0 then " OFFSET " ++ toString k else "") := rfl

theorem normPage_wrapJSON (c : config) : c.normPage.wrapJSON = c.wrapJSON := by
  unfold config.normPage
  split_ifs <;> rfl

theorem normPage_page_pos (c : config) : c.normPage.page > 0 := by
  rw [normPage_page]
  have : (1 : Int) ≤ max c.page 1 := le_max_right _ _
  omega

/-- C20 (amended): the `Offset` in the `Pagination` that `PagingFunc` returns is the number in
the `OFFSET` clause of the data SQL that the same call issues, and that data SQL always has
the clause; both are `(Page - 1) * limit` for `Page = max(page, 1)` in the arithmetic of
`int`, the product itself whenever it is an `int`. -/
theorem C20_offset_matches_clause (c : config) (f : List Handler) (fn : Handler)
    (hfn : c.GetPagingFunc f = some fn) :
    ∃ r, c.PagingFunc f = .ok r ∧
      r.dataQuery.sql
        = (if c.wrapJSON then
            wrapJSONText
              (clausesBeforeOffset r.cfg ++ " OFFSET " ++ toString r.pagination.Offset)
          else clausesBeforeOffset r.cfg ++ " OFFSET " ++ toString r.pagination.Offset) ∧
      r.pagination.Offset = wrapInt ((max c.page 1 - 1) * c.limit) ∧
      (IsInt64 ((max c.page 1 - 1) * c.limit) →
        r.pagination.Offset = (max c.page 1 - 1) * c.limit) := by
  have hoff : (c.normPage.pagingBody fn).pagination.Offset
      = wrapInt ((max c.page 1 - 1) * c.limit) := by
    rw [pagingBody_Offset, wrapInt_mul_left, normPage_limit, normPage_page]
  have hk : (if c.normPage.page > 1 then wrapInt (wrapInt (c.normPage.page - 1) * c.normPage.limit)
      else 0) = (c.normPage.pagingBody fn).pagination.Offset := by
    rw [pagingBody_Offset]
    split_ifs with h
    · rfl
    · have h1 : c.normPage.page = 1 := by
        have := normPage_page_pos c
        omega
      rw [h1]
      simp [wrapInt]
  refine ⟨_, PagingFunc_of_handler c f fn hfn, ?_, hoff, ?_⟩
  · rw [pagingBody_dataQuery, pagingBody_cfg]
    show c.normPage.build.1 = _
    rw [build_fst, hk, clauseText_eq, if_pos (normPage_page_pos c), normPage_wrapJSON,
      String.append_assoc]
  · intro h
    rw [hoff, wrapInt_of_isInt64 h]

/-- C20, witness: page 2 with a limit of 5 is offset 5 in the `Pagination` and in the SQL. -/
theorem C20_witness :
    ∃ r, (sampleState 12 2 5).PagingFunc [] = .ok r ∧
      r.pagination.Offset = 5 ∧
      r.dataQuery.sql = "SELECT u.* FROM users u LIMIT 5 OFFSET 5" := by
  obtain ⟨r, hr, hsql, _, hoff⟩ :=
    C20_offset_matches_clause (sampleState 12 2 5) [] emptyUsersHandler rfl
  have h5 : r.pagination.Offset = 5 := hoff (by decide)
  refine ⟨r, hr, h5, ?_⟩
  rw [hsql, h5]
  have hcfg : r.cfg = (sampleState 12 2 5).normPage := by
    have h := PagingFunc_of_handler (sampleState 12 2 5) [] emptyUsersHandler rfl
    rw [h] at hr
    cases hr
    rfl
  rw [hcfg]
  decide

/-- C20, as stated, fails: for page `2 ^ 62 + 1` and a limit of 4 the `Offset` and the clause
agree, on `0`, while `(Page - 1) * limit` is `2 ^ 64`. -/
theorem C20_counterexample :
    ∃ r, (sampleState 12 (2 ^ 62 + 1) 4).PagingFunc [] = .ok r ∧
      r.pagination.Offset = 0 ∧
      r.dataQuery.sql = "SELECT u.* FROM users u LIMIT 4 OFFSET 0" ∧
      r.pagination.Offset
        ≠ (max (sampleState 12 (2 ^ 62 + 1) 4).page 1 - 1)
            * (sampleState 12 (2 ^ 62 + 1) 4).limit := by
  have hoff : ((sampleState 12 (2 ^ 62 + 1) 4).normPage.pagingBody
      emptyUsersHandler).pagination.Offset = 0 := by
    rw [pagingBody_Offset, wrapInt_mul_left, normPage_limit, normPage_page]
    decide
  refine ⟨_, PagingFunc_of_handler _ [] emptyUsersHandler rfl, hoff, ?_, ?_⟩
  · rw [pagingBody_dataQuery]
    show (sampleState 12 (2 ^ 62 + 1) 4).normPage.build.1 = _
    rw [build_fst]
    decide
  · rw [hoff]
    decide

end Queryfunc
